import Mathlib

/-!
# Verification of the simple-db B+Tree storage engine (src/table.c)

This file is a shallow embedding of the paged B+Tree engine of
`src/table.c` (declarations in `src/c/db.h`) into Lean 4, together with
theorems settling the frozen claims about it.

Modelling conventions:

* A page is modelled as a typed `Node` record rather than a raw byte
  buffer.  The C layout overlaps the leaf and internal views of a page:
  offset 6 holds the leaf cell count and, equally, the internal key
  count, and offset 10 holds the leaf next-leaf reference and, equally,
  the internal right-child reference.  The model keeps those two shared
  4-byte fields as single fields (`count`, `nextOrRight`) so that the
  aliasing of the C layout is preserved.  The two cell areas (leaf
  cells and internal cells) also overlap in the C page, but the code
  only ever reads a cell area below the corresponding count after the
  node was initialized for that type, so keeping them as two separate
  stores agrees with the byte-level behaviour on every gated access.
* Machine integers (`uint32_t`) are modelled as `Nat`.  None of the
  verified routines performs arithmetic that can wrap a 32-bit value on
  the inputs the claims quantify over (indices are bounded by cell
  counts, which are bounded by the page capacity).
* `malloc` produces indeterminate bytes.  `leaf_node_find` allocates a
  `Cursor` and writes only `table`, `page_num` and `cell_num`, leaving
  `end_of_table` holding whatever the allocation contained.  The model
  makes that explicit: the find routines take the allocation content of
  the flag as an extra argument `g` and the built cursor starts from it.
* Fatal `exit(EXIT_FAILURE)` paths are modelled by `DbResult.fatal`,
  which carries the in-memory state at the moment of the exit so that
  claims about "state when the failure is raised" can be stated.
* `node.c` and `pager.c` of this repository are not under `src/`; only
  their declarations (`src/c/db.h`) and callers are.  The definitions
  below whose doc comment starts with `Modelled from the spec:` embed
  those missing parts following the spec text (§3, §4.1, §4.2, §6).
-/

namespace SimpleDb

/-- A record row.  The row codec (`serialize_row`/`deserialize_row`) is
outside the specified core, so a row is carried as a value: serializing
into a leaf cell stores the `Row` itself. -/
structure Row where
  id : Nat
  username : String
  email : String
deriving DecidableEq, Repr, Inhabited

/-- `typedef enum { NODE_INTERNAL, NODE_LEAF } NodeType;` (db.h). -/
inductive NodeType where
  | internal
  | leaf
deriving DecidableEq, Repr, Inhabited

/-- Modelled from the spec: layout constants of §3/§6.
`PAGE_SIZE = 4096`. -/
def PAGE_SIZE : Nat := 4096

/-- Modelled from the spec: `ROW_SIZE = 4 + 33 + 256 = 293` (§3). -/
def ROW_SIZE : Nat := 4 + 33 + 256

/-- Modelled from the spec: leaf header = common header 6 bytes +
cell count 4 bytes + next-leaf 4 bytes = 14 bytes (§6). -/
def LEAF_NODE_HEADER_SIZE : Nat := 6 + 4 + 4

/-- Modelled from the spec: leaf cell = key 4 bytes + row 293 bytes (§6). -/
def LEAF_NODE_CELL_SIZE : Nat := 4 + ROW_SIZE

/-- Modelled from the spec:
`LEAF_NODE_MAX_CELLS = floor((PAGE_SIZE - 14) / 297)` (§3). -/
def LEAF_NODE_MAX_CELLS : Nat :=
  (PAGE_SIZE - LEAF_NODE_HEADER_SIZE) / LEAF_NODE_CELL_SIZE

/-- Modelled from the spec: `RIGHT = (MAX_CELLS+1)/2` (§3). -/
def LEAF_NODE_RIGHT_SPLIT_COUNT : Nat := (LEAF_NODE_MAX_CELLS + 1) / 2

/-- Modelled from the spec: `LEFT = (MAX_CELLS+1) - RIGHT` (§3). -/
def LEAF_NODE_LEFT_SPLIT_COUNT : Nat :=
  (LEAF_NODE_MAX_CELLS + 1) - LEAF_NODE_RIGHT_SPLIT_COUNT

/-- Modelled from the spec: `INTERNAL_NODE_MAX_CELLS` is a small fixed
constant, deliberately undersized to exercise multi-level trees (§3);
db.h carries the comment "Keep this small for testing".  The value is
fixed at 3 here; no theorem below depends on the particular value. -/
def INTERNAL_NODE_MAX_CELLS : Nat := 3

/-- Modelled from the spec: the typed view of one page (§3).  `count`
is the 4-byte field at offset 6 (leaf cell count / internal key count)
and `nextOrRight` the 4-byte field at offset 10 (leaf next-leaf
reference / internal right-child reference); the C layout stores the
leaf and internal variants of each at the same offsets, so they are a
single field here.  `leafCells` holds (key, row) cells and
`internalCells` holds (child page, separator key) cells; reads beyond
the stored list return the zeroed-page default. -/
structure Node where
  nodeType : NodeType
  isRoot : Bool
  parent : Nat
  count : Nat
  nextOrRight : Nat
  leafCells : List (Nat × Row)
  internalCells : List (Nat × Nat)
deriving DecidableEq, Repr, Inhabited

/-- The content a freshly referenced page has: all bytes zero.  The
zero tag byte is `NODE_INTERNAL` (first enum member), zero flag is not
root, and all references and counts are zero. -/
def zeroPage : Node :=
  { nodeType := NodeType.internal, isRoot := false, parent := 0,
    count := 0, nextOrRight := 0, leafCells := [], internalCells := [] }

/-- Default leaf cell: key 0 with a zeroed row. -/
def zeroLeafCell : Nat × Row := (0, { id := 0, username := "", email := "" })

/-- Write position `i` of a cell store, growing it with zero cells if
the position lies beyond the stored list (a page buffer has every
offset writable). -/
def setSlot {α : Type} (d : α) (cs : List α) (i : Nat) (v : α) : List α :=
  (cs ++ List.replicate (i + 1 - cs.length) d).set i v

/-! ## Node accessors (node codec, modelled from the spec §4.2/§6) -/

/-- `get_node_type` (db.h): read the type tag. -/
def get_node_type (n : Node) : NodeType := n.nodeType

/-- `is_node_root` (db.h): read the root flag. -/
def is_node_root (n : Node) : Bool := n.isRoot

/-- `set_node_root` (db.h): write the root flag. -/
def set_node_root (n : Node) (b : Bool) : Node := { n with isRoot := b }

/-- `node_parent` (db.h) read view: the parent page reference. -/
def node_parent (n : Node) : Nat := n.parent

/-- `node_parent` write view: store a parent page reference. -/
def set_node_parent (n : Node) (p : Nat) : Node := { n with parent := p }

/-- `leaf_node_num_cells` read view (offset-6 field). -/
def leaf_node_num_cells (n : Node) : Nat := n.count

/-- `leaf_node_num_cells` write view. -/
def set_leaf_node_num_cells (n : Node) (c : Nat) : Node := { n with count := c }

/-- `leaf_node_next_leaf` read view (offset-10 field). -/
def leaf_node_next_leaf (n : Node) : Nat := n.nextOrRight

/-- `leaf_node_next_leaf` write view. -/
def set_leaf_node_next_leaf (n : Node) (p : Nat) : Node := { n with nextOrRight := p }

/-- `leaf_node_cell` read view: cell `i` of the leaf cell area. -/
def leaf_node_cell (n : Node) (i : Nat) : Nat × Row := n.leafCells.getD i zeroLeafCell

/-- `leaf_node_key` read view. -/
def leaf_node_key (n : Node) (i : Nat) : Nat := (leaf_node_cell n i).1

/-- `leaf_node_value` read view (the serialized row of cell `i`). -/
def leaf_node_value (n : Node) (i : Nat) : Row := (leaf_node_cell n i).2

/-- Write a whole leaf cell (the `memcpy(_, _, LEAF_NODE_CELL_SIZE)` of
the C code). -/
def set_leaf_node_cell (n : Node) (i : Nat) (c : Nat × Row) : Node :=
  { n with leafCells := setSlot zeroLeafCell n.leafCells i c }

/-- Write only the key of leaf cell `i`. -/
def set_leaf_node_key (n : Node) (i : Nat) (k : Nat) : Node :=
  set_leaf_node_cell n i (k, leaf_node_value n i)

/-- `serialize_row` into leaf cell `i`: store the row value. -/
def set_leaf_node_value (n : Node) (i : Nat) (r : Row) : Node :=
  set_leaf_node_cell n i (leaf_node_key n i, r)

/-- `internal_node_num_keys` read view (offset-6 field). -/
def internal_node_num_keys (n : Node) : Nat := n.count

/-- `internal_node_num_keys` write view. -/
def set_internal_node_num_keys (n : Node) (c : Nat) : Node := { n with count := c }

/-- `internal_node_right_child` read view (offset-10 field). -/
def internal_node_right_child (n : Node) : Nat := n.nextOrRight

/-- `internal_node_right_child` write view. -/
def set_internal_node_right_child (n : Node) (p : Nat) : Node :=
  { n with nextOrRight := p }

/-- `internal_node_cell` read view: (child page, separator key) pair
`i` of the internal cell area. -/
def internal_node_cell (n : Node) (i : Nat) : Nat × Nat :=
  n.internalCells.getD i (0, 0)

/-- `internal_node_child(node, i)` for `i < num_keys` reads cell `i`;
for `i = num_keys` it reads the right-child reference (db.h exposes it
through the same accessor, which redirects to
`internal_node_right_child` at index `num_keys`). -/
def internal_node_child (n : Node) (i : Nat) : Nat :=
  if i = internal_node_num_keys n then internal_node_right_child n
  else (internal_node_cell n i).1

/-- `internal_node_key` read view: the separator key of cell `i`. -/
def internal_node_key (n : Node) (i : Nat) : Nat := (internal_node_cell n i).2

/-- Write a whole internal cell (the `memcpy(_, _,
INTERNAL_NODE_CELL_SIZE)` of the C code). -/
def set_internal_node_cell (n : Node) (i : Nat) (c : Nat × Nat) : Node :=
  { n with internalCells := setSlot (0, 0) n.internalCells i c }

/-- Write only the child reference of internal cell `i`. -/
def set_internal_node_child (n : Node) (i : Nat) (p : Nat) : Node :=
  set_internal_node_cell n i (p, internal_node_key n i)

/-- Write only the separator key of internal cell `i`. -/
def set_internal_node_key (n : Node) (i : Nat) (k : Nat) : Node :=
  set_internal_node_cell n i ((internal_node_cell n i).1, k)

/-- Modelled from the spec: `initialize_leaf_node` zeroes the relevant
header fields (cell count, next-leaf, root flag) and sets the type tag
(§4.2); it does not clear cell storage, but the cleared count gates
every later read, so the model resets the stores. -/
def initialize_leaf_node (n : Node) : Node :=
  { n with nodeType := NodeType.leaf, isRoot := false, count := 0, nextOrRight := 0 }

/-- Modelled from the spec: `initialize_internal_node` zeroes the
relevant header fields (key count, root flag) and sets the type tag
(§4.2). -/
def initialize_internal_node (n : Node) : Node :=
  { n with nodeType := NodeType.internal, isRoot := false, count := 0 }

/-- Modelled from the spec: `get_node_max_key` — for a leaf, the last
cell's key (§3).  db.h declares `uint32_t get_node_max_key(void* node)`
with no pager argument, so for an internal node the function cannot
dereference into the page store as §4.2 describes; the only value of
the declared type consistent with the layout is the last separator key,
which is what the internal branch reads here.  Every call site in
src/table.c that is reachable without an internal-node split passes a
leaf, where the two readings agree. -/
def get_node_max_key (n : Node) : Nat :=
  match n.nodeType with
  | NodeType.internal => internal_node_key n (internal_node_num_keys n - 1)
  | NodeType.leaf => leaf_node_key n (leaf_node_num_cells n - 1)

/-! ## Page store, table, cursor -/

/-- Modelled from the spec: the page store (§4.1) — an in-memory cache
of fixed-size page buffers; `pages.length` is the logical page count.
No backing file is modelled: the claims quantify over states grown from
a new (zero-length) file, where cache and file content coincide. -/
structure Pager where
  pages : List Node
deriving DecidableEq, Repr, Inhabited

/-- `pager->num_pages`. -/
def Pager.numPages (p : Pager) : Nat := p.pages.length

/-- Modelled from the spec: referencing a page beyond the current page
count creates it as a zeroed buffer and raises the logical page count
to `n + 1` (§4.1, lifecycle in §3). -/
def ensurePage (p : Pager) (n : Nat) : Pager :=
  { pages := p.pages ++ List.replicate (n + 1 - p.pages.length) zeroPage }

/-- Modelled from the spec: `get_page` (§4.1) — the pager state after
the call and the content of page `n`.  The fixed maximum page capacity
(fatal when exceeded) is not modelled; dropping the bound only enlarges
the state space the theorems quantify over. -/
def get_page (p : Pager) (n : Nat) : Pager × Node :=
  (ensurePage p n, (ensurePage p n).pages.getD n zeroPage)

/-- A store through a page pointer obtained from `get_page`: replace
the buffer of page `n`. -/
def write_page (p : Pager) (n : Nat) (nd : Node) : Pager :=
  { pages := (ensurePage p n).pages.set n nd }

/-- `get_unused_page_num` (§4.1): the next unused page number is the
current page count. -/
def get_unused_page_num (p : Pager) : Nat := p.numPages

/-- The `Table` of db.h: a root page number bound to a page store. -/
structure Table where
  pager : Pager
  root_page_num : Nat
deriving DecidableEq, Repr, Inhabited

/-- The `Cursor` of db.h, minus the back-reference to its table (the
table state is threaded explicitly through every operation). -/
structure Cursor where
  page_num : Nat
  cell_num : Nat
  end_of_table : Bool
deriving DecidableEq, Repr, Inhabited

/-- `db_open` on a new (zero-length) backing file (src/table.c lines
7-22): the pager reports zero pages, so page 0 is initialized as an
empty leaf marked root.  The file-system side of `pager_open` is not
modelled. -/
def db_open_fresh : Table :=
  let t : Table := { pager := { pages := [] }, root_page_num := 0 }
  let p1 := (get_page t.pager 0).1
  let root_node := (get_page t.pager 0).2
  { t with pager := write_page p1 0 (set_node_root (initialize_leaf_node root_node) true) }

/-! ## Search -/

/-- The binary-search loop of `leaf_node_find` (src/table.c lines
111-126), returning the final `cell_num`.  The C loop runs while
`one_past_max_index != min_index`; the entry values and both updates
keep `min_index ≤ one_past_max_index`, so the test is `lo < hi`, and
each iteration shrinks the window `[lo, hi)`, so the window size bounds
the iteration count: the first argument is that bound (structural fuel,
supplied by `leafFindLoop` below), and the loop exits exactly when
`lo < hi` fails. -/
def leafFindLoopF (node : Node) (key : Nat) : Nat → Nat → Nat → Nat
  | 0, lo, _ => lo
  | fuel + 1, lo, hi =>
    if lo < hi then
      if key = leaf_node_key node ((lo + hi) / 2) then (lo + hi) / 2
      else if key < leaf_node_key node ((lo + hi) / 2) then
        leafFindLoopF node key fuel lo ((lo + hi) / 2)
      else
        leafFindLoopF node key fuel ((lo + hi) / 2 + 1) hi
    else lo

/-- The `leaf_node_find` loop on the window `[lo, hi)`. -/
def leafFindLoop (node : Node) (key lo hi : Nat) : Nat :=
  leafFindLoopF node key (hi - lo) lo hi

/-- `leaf_node_find` (src/table.c lines 103-130).  `g` is the
indeterminate content the malloc'd cursor holds in its `end_of_table`
field: the function writes `table`, `page_num` and `cell_num` only and
never touches the flag. -/
def leaf_node_find (t : Table) (page_num key : Nat) (g : Bool) : Table × Cursor :=
  let p1 := (get_page t.pager page_num).1
  let node := (get_page t.pager page_num).2
  ({ t with pager := p1 },
   { page_num := page_num,
     cell_num := leafFindLoop node key 0 (leaf_node_num_cells node),
     end_of_table := g })

/-- The binary-search loop of `internal_node_find_child` (src/table.c
lines 151-163); same loop-test and fuel remark as for
`leafFindLoopF`. -/
def internalFindChildLoopF (node : Node) (key : Nat) : Nat → Nat → Nat → Nat
  | 0, lo, _ => lo
  | fuel + 1, lo, hi =>
    if lo < hi then
      if key ≤ internal_node_key node ((lo + hi) / 2) then
        internalFindChildLoopF node key fuel lo ((lo + hi) / 2)
      else
        internalFindChildLoopF node key fuel ((lo + hi) / 2 + 1) hi
    else lo

/-- The `internal_node_find_child` loop on the window `[lo, hi)`. -/
def internalFindChildLoop (node : Node) (key lo hi : Nat) : Nat :=
  internalFindChildLoopF node key (hi - lo) lo hi

/-- `internal_node_find_child` (src/table.c lines 146-166): the index
of the child which should contain the given key, in
`[0, num_keys]` — there is one more child than keys. -/
def internal_node_find_child (node : Node) (key : Nat) : Nat :=
  internalFindChildLoop node key 0 (internal_node_num_keys node)

/-- `internal_node_find` (src/table.c lines 132-144).  The C function
recurses unboundedly through child pages; `fuel` bounds the descent in
the model, `none` signalling exhaustion (no terminating C execution
corresponds to that case). -/
def internal_node_find (fuel : Nat) (t : Table) (page_num key : Nat) (g : Bool) :
    Option (Table × Cursor) :=
  match fuel with
  | 0 => none
  | fuel + 1 =>
    let p1 := (get_page t.pager page_num).1
    let node := (get_page t.pager page_num).2
    let t1 : Table := { t with pager := p1 }
    let child_num := internal_node_child node (internal_node_find_child node key)
    let p2 := (get_page t1.pager child_num).1
    let child := (get_page t1.pager child_num).2
    let t2 : Table := { t1 with pager := p2 }
    match get_node_type child with
    | NodeType.leaf => some (leaf_node_find t2 child_num key g)
    | NodeType.internal => internal_node_find fuel t2 child_num key g

/-- `table_find` (src/table.c lines 92-101).  The fuel handed to the
internal-node descent is the current page count: a terminating descent
visits pairwise distinct pages, so it takes at most that many steps. -/
def table_find (t : Table) (key : Nat) (g : Bool) : Option (Table × Cursor) :=
  let p1 := (get_page t.pager t.root_page_num).1
  let root_node := (get_page t.pager t.root_page_num).2
  let t1 : Table := { t with pager := p1 }
  if get_node_type root_node = NodeType.leaf then
    some (leaf_node_find t1 t.root_page_num key g)
  else
    internal_node_find t1.pager.numPages t1 t.root_page_num key g

/-- `table_start` (src/table.c lines 54-62): find key 0, then set
`end_of_table` to whether the resolved leaf holds zero cells. -/
def table_start (t : Table) (g : Bool) : Option (Table × Cursor) :=
  match table_find t 0 g with
  | none => none
  | some tc =>
    let p2 := (get_page tc.1.pager tc.2.page_num).1
    let node := (get_page tc.1.pager tc.2.page_num).2
    some ({ tc.1 with pager := p2 },
          { tc.2 with end_of_table := leaf_node_num_cells node == 0 })

/-- `cursor_value` (src/table.c lines 64-68). -/
def cursor_value (t : Table) (c : Cursor) : Table × Row :=
  let p1 := (get_page t.pager c.page_num).1
  let page := (get_page t.pager c.page_num).2
  ({ t with pager := p1 }, leaf_node_value page c.cell_num)

/-- `cursor_advance` (src/table.c lines 70-86). -/
def cursor_advance (t : Table) (c : Cursor) : Table × Cursor :=
  let p1 := (get_page t.pager c.page_num).1
  let node := (get_page t.pager c.page_num).2
  let t1 : Table := { t with pager := p1 }
  let c1 : Cursor := { c with cell_num := c.cell_num + 1 }
  if c1.cell_num ≥ leaf_node_num_cells node then
    if leaf_node_next_leaf node = 0 then
      (t1, { c1 with end_of_table := true })
    else
      (t1, { c1 with page_num := leaf_node_next_leaf node, cell_num := 0 })
  else
    (t1, c1)

/-! ## Insertion -/

/-- Result of an operation that can hit a fatal `exit(EXIT_FAILURE)`:
`fatal` carries the printed message and the in-memory state at the
moment of the exit. -/
inductive DbResult (α : Type) where
  | ok (a : α)
  | fatal (msg : String) (a : α)
deriving DecidableEq, Repr

/-- `update_internal_node_key` (src/table.c lines 273-276). -/
def update_internal_node_key (node : Node) (old_key new_key : Nat) : Node :=
  set_internal_node_key node (internal_node_find_child node old_key) new_key

/-- The cell-shifting loop of `internal_node_insert` (src/table.c
lines 303-307): for `i` descending while `i > index`, copy cell `i-1`
over cell `i`. -/
def internalShiftLoop (index : Nat) : Node → Nat → Node
  | parent, 0 => parent
  | parent, i + 1 =>
    if i + 1 > index then
      internalShiftLoop index
        (set_internal_node_cell parent (i + 1) (internal_node_cell parent i)) i
    else parent

/-- `internal_node_insert` (src/table.c lines 278-311).  Note the
source increments the stored key count before the capacity check, so
the fatal state carries the incremented count. -/
def internal_node_insert (t : Table) (parent_page_num child_page_num : Nat) :
    DbResult Table :=
  let p1 := (get_page t.pager parent_page_num).1
  let parent := (get_page t.pager parent_page_num).2
  let p2 := (get_page p1 child_page_num).1
  let child := (get_page p1 child_page_num).2
  let child_max_key := get_node_max_key child
  let index := internal_node_find_child parent child_max_key
  let original_num_keys := internal_node_num_keys parent
  let parent := set_internal_node_num_keys parent (original_num_keys + 1)
  let p3 := write_page p2 parent_page_num parent
  if original_num_keys ≥ INTERNAL_NODE_MAX_CELLS then
    DbResult.fatal "Need to implement splitting internal node" { t with pager := p3 }
  else
    let right_child_page_num := internal_node_right_child parent
    let p4 := (get_page p3 right_child_page_num).1
    let right_child := (get_page p3 right_child_page_num).2
    if child_max_key > get_node_max_key right_child then
      let parent := set_internal_node_child parent original_num_keys right_child_page_num
      let parent := set_internal_node_key parent original_num_keys
        (get_node_max_key right_child)
      let parent := set_internal_node_right_child parent child_page_num
      DbResult.ok { t with pager := write_page p4 parent_page_num parent }
    else
      let parent := internalShiftLoop index parent original_num_keys
      let parent := set_internal_node_child parent index child_page_num
      let parent := set_internal_node_key parent index child_max_key
      DbResult.ok { t with pager := write_page p4 parent_page_num parent }

/-- `create_new_root` (src/table.c lines 245-271).  The page copy of
`memcpy(left_child, root, PAGE_SIZE)` is the copy of the typed page
content. -/
def create_new_root (t : Table) (right_child_page_num : Nat) : Table :=
  let p1 := (get_page t.pager t.root_page_num).1
  let root := (get_page t.pager t.root_page_num).2
  let p2 := (get_page p1 right_child_page_num).1
  let right_child := (get_page p1 right_child_page_num).2
  let left_child_page_num := get_unused_page_num p2
  let p3 := (get_page p2 left_child_page_num).1
  let left_child := set_node_root root false
  let root := set_node_root (initialize_internal_node root) true
  let root := set_internal_node_num_keys root 1
  let root := set_internal_node_child root 0 left_child_page_num
  let root := set_internal_node_key root 0 (get_node_max_key left_child)
  let root := set_internal_node_right_child root right_child_page_num
  let left_child := set_node_parent left_child t.root_page_num
  let right_child := set_node_parent right_child t.root_page_num
  let p4 := write_page p3 t.root_page_num root
  let p5 := write_page p4 left_child_page_num left_child
  let p6 := write_page p5 right_child_page_num right_child
  { t with pager := p6 }

/-- The high-to-low redistribution loop of `leaf_node_split_and_insert`
(src/table.c lines 208-226).  The argument is one past the current
virtual index, so the call with `fuel = LEAF_NODE_MAX_CELLS + 1` runs
the C loop `for (i = LEAF_NODE_MAX_CELLS; i >= 0; i--)`.  Destination
is the new node for `i ≥ LEFT_SPLIT_COUNT`, the old node otherwise, at
position `i % LEFT_SPLIT_COUNT`; the cell written is the new entry at
`i = cell_num`, old cell `i-1` above it, old cell `i` below it — read
from the old node as mutated so far, as through the C pointer. -/
def splitLoop (cell_num key : Nat) (value : Row) :
    Nat → Node × Node → Node × Node
  | 0, st => st
  | i + 1, st =>
    let cell : Nat × Row :=
      if i = cell_num then (key, value)
      else if i > cell_num then leaf_node_cell st.1 (i - 1)
      else leaf_node_cell st.1 i
    if i ≥ LEAF_NODE_LEFT_SPLIT_COUNT then
      splitLoop cell_num key value i
        (st.1, set_leaf_node_cell st.2 (i % LEAF_NODE_LEFT_SPLIT_COUNT) cell)
    else
      splitLoop cell_num key value i
        (set_leaf_node_cell st.1 (i % LEAF_NODE_LEFT_SPLIT_COUNT) cell, st.2)

/-- `leaf_node_split_and_insert` (src/table.c lines 191-243). -/
def leaf_node_split_and_insert (t : Table) (cursor : Cursor) (key : Nat)
    (value : Row) : DbResult Table :=
  let p1 := (get_page t.pager cursor.page_num).1
  let old_node := (get_page t.pager cursor.page_num).2
  let old_max := get_node_max_key old_node
  let new_page_num := get_unused_page_num p1
  let p2 := (get_page p1 new_page_num).1
  let new_node := (get_page p1 new_page_num).2
  let new_node := initialize_leaf_node new_node
  let new_node := set_node_parent new_node (node_parent old_node)
  let new_node := set_leaf_node_next_leaf new_node (leaf_node_next_leaf old_node)
  let old_node := set_leaf_node_next_leaf old_node new_page_num
  let st := splitLoop cursor.cell_num key value (LEAF_NODE_MAX_CELLS + 1)
    (old_node, new_node)
  let old_node := set_leaf_node_num_cells st.1 LEAF_NODE_LEFT_SPLIT_COUNT
  let new_node := set_leaf_node_num_cells st.2 LEAF_NODE_RIGHT_SPLIT_COUNT
  let p3 := write_page (write_page p2 cursor.page_num old_node) new_page_num new_node
  let t1 : Table := { t with pager := p3 }
  if is_node_root old_node then
    DbResult.ok (create_new_root t1 new_page_num)
  else
    let parent_page_num := node_parent old_node
    let new_max := get_node_max_key old_node
    let p4 := (get_page t1.pager parent_page_num).1
    let parent := (get_page t1.pager parent_page_num).2
    let parent := update_internal_node_key parent old_max new_max
    let t2 : Table := { t1 with pager := write_page p4 parent_page_num parent }
    internal_node_insert t2 parent_page_num new_page_num

/-- The cell-shifting loop of `leaf_node_insert` (src/table.c lines
181-183): for `i` descending while `i > cell_num`, copy cell `i-1`
over cell `i`. -/
def leafShiftLoop (cell_num : Nat) : Node → Nat → Node
  | node, 0 => node
  | node, i + 1 =>
    if i + 1 > cell_num then
      leafShiftLoop cell_num
        (set_leaf_node_cell node (i + 1) (leaf_node_cell node i)) i
    else node

/-- `leaf_node_insert` (src/table.c lines 169-189). -/
def leaf_node_insert (t : Table) (cursor : Cursor) (key : Nat) (value : Row) :
    DbResult Table :=
  let p1 := (get_page t.pager cursor.page_num).1
  let node := (get_page t.pager cursor.page_num).2
  let t1 : Table := { t with pager := p1 }
  let num_cells := leaf_node_num_cells node
  if num_cells ≥ LEAF_NODE_MAX_CELLS then
    leaf_node_split_and_insert t1 cursor key value
  else
    let node := if cursor.cell_num < num_cells then leafShiftLoop cursor.cell_num node num_cells
      else node
    let node := set_leaf_node_num_cells node (leaf_node_num_cells node + 1)
    let node := set_leaf_node_key node cursor.cell_num key
    let node := set_leaf_node_value node cursor.cell_num value
    DbResult.ok { t1 with pager := write_page p1 cursor.page_num node }

/-- Modelled from the spec: the statement layer's insert path (§6)
resolves the position with `table_find` on the row's key and calls
`leaf_node_insert` there; duplicate-key policy is the caller's and not
part of this primitive.  The malloc content of the intermediate
cursor's `end_of_table` flag is irrelevant to `leaf_node_insert` and
fixed to `false`. -/
def insertKey (t : Table) (key : Nat) (value : Row) : Option (DbResult Table) :=
  match table_find t key false with
  | none => none
  | some (t1, cursor) => some (leaf_node_insert t1 cursor key value)

/-! ## Iterated cursor advance -/

/-- `n` successive calls of `cursor_advance` on a cursor, threading the
table state. -/
def advanceIter : Nat → Table × Cursor → Table × Cursor
  | 0, tc => tc
  | n + 1, tc => advanceIter n (cursor_advance tc.1 tc.2)

/-- Read the current buffer of page `n` without the creation side
effect of `get_page` (used to state theorems; `get_page` returns
exactly this content). -/
def Pager.read (p : Pager) (n : Nat) : Node := p.pages.getD n zeroPage

/-- The table state carried by a `DbResult`, whether the operation
completed or hit a fatal exit. -/
def DbResult.state {α : Type} : DbResult α → α
  | DbResult.ok a => a
  | DbResult.fatal _ a => a

/-- The ordered merge of a leaf's cells with a new (key, row) entry at
insertion position `c`: virtual cell `j` is the old cell `j` below the
insertion point, the new entry at it, and the old cell `j - 1` above
it. -/
def splitMerged (c key : Nat) (value : Row) (O : Node) (j : Nat) : Nat × Row :=
  if j < c then leaf_node_cell O j
  else if j = c then (key, value)
  else leaf_node_cell O (j - 1)

/-- One engine operation, as the statement layer drives it (§6): a
find, a start, a cursor advance, a cursor value read, or an insert that
completes without a fatal exit.  Each relates a table state to the
state after the call. -/
inductive Step : Table → Table → Prop where
  | find (t : Table) (key : Nat) (g : Bool) (t1 : Table) (c : Cursor) :
      table_find t key g = some (t1, c) → Step t t1
  | start (t : Table) (g : Bool) (t1 : Table) (c : Cursor) :
      table_start t g = some (t1, c) → Step t t1
  | advance (t : Table) (c : Cursor) : Step t (cursor_advance t c).1
  | value (t : Table) (c : Cursor) : Step t (cursor_value t c).1
  | insert (t : Table) (key : Nat) (value : Row) (t1 : Table) :
      insertKey t key value = some (DbResult.ok t1) → Step t t1

/-- Table states reachable from opening a fresh database by any
sequence of engine operations. -/
def Reachable (t : Table) : Prop :=
  Relation.ReflTransGen Step db_open_fresh t

/-- The root-flag invariant: the table's root page number is 0, page 0
exists and is the unique page whose root flag is set. -/
def Inv9 (t : Table) : Prop :=
  t.root_page_num = 0 ∧ 0 < t.pager.numPages ∧
  is_node_root (t.pager.read 0) = true ∧
  ∀ n, n ≠ 0 → is_node_root (t.pager.read n) = false

/-! ## Concrete fixtures used by witness and counterexample theorems -/

/-- A sample row with the given id. -/
def sampleRow (k : Nat) : Row := { id := k, username := "user", email := "mail" }

/-- A one-page table whose root is a leaf with three strictly ascending
keys 2, 5, 9. -/
def demoLeafTable : Table :=
  { pager := { pages := [
      { nodeType := NodeType.leaf, isRoot := true, parent := 0, count := 3,
        nextOrRight := 0,
        leafCells := [(2, sampleRow 2), (5, sampleRow 5), (9, sampleRow 9)],
        internalCells := [] } ] },
    root_page_num := 0 }

/-- An internal node with separators 10, 20, 30 over children
4, 5, 6 and rightmost child 7. -/
def demoInternalNode : Node :=
  { nodeType := NodeType.internal, isRoot := true, parent := 0, count := 3,
    nextOrRight := 7, leafCells := [],
    internalCells := [(4, 10), (5, 20), (6, 30)] }

/-- A leaf page holding the single key `k` (used as a child fixture). -/
def demoLeaf (k next : Nat) : Node :=
  { nodeType := NodeType.leaf, isRoot := false, parent := 0, count := 1,
    nextOrRight := next, leafCells := [(k, sampleRow k)], internalCells := [] }

/-- A table whose root (page 0) is an internal node already holding
`INTERNAL_NODE_MAX_CELLS = 3` keys over leaf children 1, 2, 3 and
rightmost leaf child 4; page 5 is a further leaf with key 25, not yet
registered in the parent. -/
def fullParentTable : Table :=
  { pager := { pages := [
      { nodeType := NodeType.internal, isRoot := true, parent := 0, count := 3,
        nextOrRight := 4, leafCells := [],
        internalCells := [(1, 10), (2, 20), (3, 30)] },
      demoLeaf 10 2, demoLeaf 20 3, demoLeaf 30 4, demoLeaf 40 0,
      demoLeaf 25 4 ] },
    root_page_num := 0 }

/-- The in-memory state `internal_node_insert` leaves behind when it
hits the internal-node-capacity exit on `fullParentTable`. -/
def c4FatalState : Table :=
  match internal_node_insert fullParentTable 0 5 with
  | DbResult.ok s => s
  | DbResult.fatal _ s => s

/-- A two-page table: a leaf root with keys 2, 5 on page 0 and a
sibling leaf with key 9 on page 1 (a right-child candidate for root
promotion). -/
def c5Table : Table :=
  { pager := { pages := [
      { nodeType := NodeType.leaf, isRoot := true, parent := 0, count := 2,
        nextOrRight := 1,
        leafCells := [(2, sampleRow 2), (5, sampleRow 5)],
        internalCells := [] },
      demoLeaf 9 0 ] },
    root_page_num := 0 }

/-- A table whose root (page 0) is an internal node with two keys over
leaf children 1, 2 and rightmost leaf child 3; page 4 is a further leaf
with key 15, not yet registered in the parent. -/
def c7Table : Table :=
  { pager := { pages := [
      { nodeType := NodeType.internal, isRoot := true, parent := 0, count := 2,
        nextOrRight := 3, leafCells := [], internalCells := [(1, 10), (2, 20)] },
      demoLeaf 10 2, demoLeaf 20 3, demoLeaf 30 0, demoLeaf 15 3 ] },
    root_page_num := 0 }

/-- A full leaf (13 cells, keys 1..13) used to exercise a split. -/
def c3Leaf : Node :=
  { nodeType := NodeType.leaf, isRoot := false, parent := 0, count := 13,
    nextOrRight := 2,
    leafCells := (List.range 13).map (fun i => (i + 1, sampleRow (i + 1))),
    internalCells := [] }

/-- A table whose page 1 is the full non-root leaf `c3Leaf` under an
internal root, with a right sibling leaf on page 2. -/
def c3Table : Table :=
  { pager := { pages := [
      { nodeType := NodeType.internal, isRoot := true, parent := 0, count := 1,
        nextOrRight := 2, leafCells := [], internalCells := [(1, 13)] },
      c3Leaf, demoLeaf 20 0 ] },
    root_page_num := 0 }

/-! ## Page-store algebra -/

theorem numPages_ensurePage (p : Pager) (n : Nat) :
    (ensurePage p n).numPages = max p.numPages (n + 1) := by
  simp only [ensurePage, Pager.numPages, List.length_append, List.length_replicate]
  omega

theorem ensurePage_of_lt (p : Pager) (n : Nat) (h : n < p.numPages) :
    ensurePage p n = p := by
  simp only [Pager.numPages] at h
  simp only [ensurePage]
  have h0 : n + 1 - p.pages.length = 0 := by omega
  simp [h0]

theorem get_page_fst (p : Pager) (n : Nat) : (get_page p n).1 = ensurePage p n := rfl

theorem read_ensurePage (p : Pager) (n m : Nat) :
    (ensurePage p n).read m = p.read m := by
  simp only [Pager.read, ensurePage]
  rcases Nat.lt_or_ge m p.pages.length with h | h
  · rw [List.getD_append _ _ _ _ h]
  · rw [List.getD_append_right _ _ _ _ h]
    rcases Nat.lt_or_ge m (p.pages.length + (n + 1 - p.pages.length)) with h2 | h2
    · rw [List.getD_eq_getElem?_getD, List.getElem?_replicate]
      have h3 : m - p.pages.length < n + 1 - p.pages.length := by omega
      simp only [if_pos h3, Option.getD_some]
      rw [List.getD_eq_getElem?_getD, List.getElem?_eq_none (by omega)]
      rfl
    · rw [List.getD_eq_getElem?_getD, List.getElem?_replicate]
      have h3 : ¬ (m - p.pages.length < n + 1 - p.pages.length) := by omega
      simp only [if_neg h3]
      rw [List.getD_eq_getElem?_getD, List.getElem?_eq_none (by omega)]

theorem get_page_snd (p : Pager) (n : Nat) : (get_page p n).2 = p.read n := by
  show (ensurePage p n).pages.getD n zeroPage = p.read n
  exact read_ensurePage p n n

theorem numPages_write_page (p : Pager) (n : Nat) (nd : Node) :
    (write_page p n nd).numPages = max p.numPages (n + 1) := by
  simp only [write_page, Pager.numPages, List.length_set]
  have := numPages_ensurePage p n
  simp only [Pager.numPages] at this
  omega

theorem read_write_page_same (p : Pager) (n : Nat) (nd : Node) :
    (write_page p n nd).read n = nd := by
  simp only [write_page, Pager.read]
  have hlen : n < (ensurePage p n).pages.length := by
    have := numPages_ensurePage p n
    simp only [Pager.numPages] at this
    omega
  rw [List.getD_eq_getElem?_getD, List.getElem?_set_eq_of_lt nd hlen]
  rfl

theorem read_write_page_other (p : Pager) (n m : Nat) (nd : Node) (h : m ≠ n) :
    (write_page p n nd).read m = p.read m := by
  simp only [write_page, Pager.read]
  rw [List.getD_eq_getElem?_getD, List.getElem?_set_ne (fun he => h he.symm),
    ← List.getD_eq_getElem?_getD]
  exact read_ensurePage p n m

theorem numPages_le_write_page (p : Pager) (n : Nat) (nd : Node) :
    p.numPages ≤ (write_page p n nd).numPages := by
  rw [numPages_write_page]; omega

/-! ## Node-cell algebra -/

theorem getD_setSlot_same {α : Type} (d : α) (cs : List α) (i : Nat) (v : α) :
    (setSlot d cs i v).getD i d = v := by
  have hlen : i < (cs ++ List.replicate (i + 1 - cs.length) d).length := by
    simp only [List.length_append, List.length_replicate]
    omega
  simp only [setSlot]
  rw [List.getD_eq_getElem?_getD, List.getElem?_set_eq_of_lt v hlen]
  rfl

theorem getD_setSlot_other {α : Type} (d : α) (cs : List α) (i j : Nat) (v : α)
    (h : j ≠ i) : (setSlot d cs i v).getD j d = cs.getD j d := by
  simp only [setSlot]
  rw [List.getD_eq_getElem?_getD, List.getElem?_set_ne (fun he => h he.symm),
    ← List.getD_eq_getElem?_getD]
  rcases Nat.lt_or_ge j cs.length with hj | hj
  · rw [List.getD_append _ _ _ _ hj]
  · rw [List.getD_append_right _ _ _ _ hj]
    rcases Nat.lt_or_ge (j - cs.length) (i + 1 - cs.length) with h2 | h2
    · rw [List.getD_eq_getElem?_getD, List.getElem?_replicate, if_pos h2]
      rw [List.getD_eq_getElem?_getD, List.getElem?_eq_none (by omega)]
      rfl
    · rw [List.getD_eq_getElem?_getD, List.getElem?_replicate, if_neg (by omega)]
      rw [List.getD_eq_getElem?_getD, List.getElem?_eq_none (by omega)]

theorem leaf_node_cell_set_same (n : Node) (i : Nat) (c : Nat × Row) :
    leaf_node_cell (set_leaf_node_cell n i c) i = c :=
  getD_setSlot_same zeroLeafCell n.leafCells i c

theorem leaf_node_cell_set_other (n : Node) (i j : Nat) (c : Nat × Row)
    (h : j ≠ i) :
    leaf_node_cell (set_leaf_node_cell n i c) j = leaf_node_cell n j :=
  getD_setSlot_other zeroLeafCell n.leafCells i j c h

theorem internal_node_cell_set_same (n : Node) (i : Nat) (c : Nat × Nat) :
    internal_node_cell (set_internal_node_cell n i c) i = c :=
  getD_setSlot_same (0, 0) n.internalCells i c

theorem internal_node_cell_set_other (n : Node) (i j : Nat) (c : Nat × Nat)
    (h : j ≠ i) :
    internal_node_cell (set_internal_node_cell n i c) j = internal_node_cell n j :=
  getD_setSlot_other (0, 0) n.internalCells i j c h

theorem get_node_max_key_set_node_parent (n : Node) (p : Nat) :
    get_node_max_key (set_node_parent n p) = get_node_max_key n := by
  cases n with
  | mk ty ro pa ct nr lc ic => cases ty <;> rfl

/-! ## Accessor-through-setter lemmas (all definitional) -/

@[simp] theorem get_node_type_set_node_root (n : Node) (b : Bool) :
    get_node_type (set_node_root n b) = get_node_type n := rfl

@[simp] theorem get_node_type_set_node_parent (n : Node) (p : Nat) :
    get_node_type (set_node_parent n p) = get_node_type n := rfl

@[simp] theorem get_node_type_set_leaf_node_num_cells (n : Node) (c : Nat) :
    get_node_type (set_leaf_node_num_cells n c) = get_node_type n := rfl

@[simp] theorem get_node_type_set_internal_node_num_keys (n : Node) (c : Nat) :
    get_node_type (set_internal_node_num_keys n c) = get_node_type n := rfl

@[simp] theorem get_node_type_set_leaf_node_next_leaf (n : Node) (p : Nat) :
    get_node_type (set_leaf_node_next_leaf n p) = get_node_type n := rfl

@[simp] theorem get_node_type_set_internal_node_right_child (n : Node) (p : Nat) :
    get_node_type (set_internal_node_right_child n p) = get_node_type n := rfl

@[simp] theorem get_node_type_set_leaf_node_cell (n : Node) (i : Nat) (c : Nat × Row) :
    get_node_type (set_leaf_node_cell n i c) = get_node_type n := rfl

@[simp] theorem get_node_type_set_internal_node_cell (n : Node) (i : Nat) (c : Nat × Nat) :
    get_node_type (set_internal_node_cell n i c) = get_node_type n := rfl

@[simp] theorem get_node_type_initialize_leaf_node (n : Node) :
    get_node_type (initialize_leaf_node n) = NodeType.leaf := rfl

@[simp] theorem get_node_type_initialize_internal_node (n : Node) :
    get_node_type (initialize_internal_node n) = NodeType.internal := rfl

@[simp] theorem is_node_root_set_node_root (n : Node) (b : Bool) :
    is_node_root (set_node_root n b) = b := rfl

@[simp] theorem is_node_root_set_node_parent (n : Node) (p : Nat) :
    is_node_root (set_node_parent n p) = is_node_root n := rfl

@[simp] theorem is_node_root_set_leaf_node_num_cells (n : Node) (c : Nat) :
    is_node_root (set_leaf_node_num_cells n c) = is_node_root n := rfl

@[simp] theorem is_node_root_set_internal_node_num_keys (n : Node) (c : Nat) :
    is_node_root (set_internal_node_num_keys n c) = is_node_root n := rfl

@[simp] theorem is_node_root_set_leaf_node_next_leaf (n : Node) (p : Nat) :
    is_node_root (set_leaf_node_next_leaf n p) = is_node_root n := rfl

@[simp] theorem is_node_root_set_internal_node_right_child (n : Node) (p : Nat) :
    is_node_root (set_internal_node_right_child n p) = is_node_root n := rfl

@[simp] theorem is_node_root_set_leaf_node_cell (n : Node) (i : Nat) (c : Nat × Row) :
    is_node_root (set_leaf_node_cell n i c) = is_node_root n := rfl

@[simp] theorem is_node_root_set_internal_node_cell (n : Node) (i : Nat) (c : Nat × Nat) :
    is_node_root (set_internal_node_cell n i c) = is_node_root n := rfl

@[simp] theorem is_node_root_initialize_leaf_node (n : Node) :
    is_node_root (initialize_leaf_node n) = false := rfl

@[simp] theorem is_node_root_initialize_internal_node (n : Node) :
    is_node_root (initialize_internal_node n) = false := rfl

@[simp] theorem node_parent_set_node_root (n : Node) (b : Bool) :
    node_parent (set_node_root n b) = node_parent n := rfl

@[simp] theorem node_parent_set_node_parent (n : Node) (p : Nat) :
    node_parent (set_node_parent n p) = p := rfl

@[simp] theorem node_parent_set_leaf_node_num_cells (n : Node) (c : Nat) :
    node_parent (set_leaf_node_num_cells n c) = node_parent n := rfl

@[simp] theorem node_parent_set_internal_node_num_keys (n : Node) (c : Nat) :
    node_parent (set_internal_node_num_keys n c) = node_parent n := rfl

@[simp] theorem node_parent_set_leaf_node_next_leaf (n : Node) (p : Nat) :
    node_parent (set_leaf_node_next_leaf n p) = node_parent n := rfl

@[simp] theorem node_parent_set_internal_node_right_child (n : Node) (p : Nat) :
    node_parent (set_internal_node_right_child n p) = node_parent n := rfl

@[simp] theorem node_parent_set_leaf_node_cell (n : Node) (i : Nat) (c : Nat × Row) :
    node_parent (set_leaf_node_cell n i c) = node_parent n := rfl

@[simp] theorem node_parent_set_internal_node_cell (n : Node) (i : Nat) (c : Nat × Nat) :
    node_parent (set_internal_node_cell n i c) = node_parent n := rfl

@[simp] theorem node_parent_initialize_leaf_node (n : Node) :
    node_parent (initialize_leaf_node n) = node_parent n := rfl

@[simp] theorem node_parent_initialize_internal_node (n : Node) :
    node_parent (initialize_internal_node n) = node_parent n := rfl

@[simp] theorem leaf_node_num_cells_set_node_root (n : Node) (b : Bool) :
    leaf_node_num_cells (set_node_root n b) = leaf_node_num_cells n := rfl

@[simp] theorem leaf_node_num_cells_set_node_parent (n : Node) (p : Nat) :
    leaf_node_num_cells (set_node_parent n p) = leaf_node_num_cells n := rfl

@[simp] theorem leaf_node_num_cells_set_leaf_node_num_cells (n : Node) (c : Nat) :
    leaf_node_num_cells (set_leaf_node_num_cells n c) = c := rfl

@[simp] theorem leaf_node_num_cells_set_internal_node_num_keys (n : Node) (c : Nat) :
    leaf_node_num_cells (set_internal_node_num_keys n c) = c := rfl

@[simp] theorem leaf_node_num_cells_set_leaf_node_next_leaf (n : Node) (p : Nat) :
    leaf_node_num_cells (set_leaf_node_next_leaf n p) = leaf_node_num_cells n := rfl

@[simp] theorem leaf_node_num_cells_set_internal_node_right_child (n : Node) (p : Nat) :
    leaf_node_num_cells (set_internal_node_right_child n p) = leaf_node_num_cells n := rfl

@[simp] theorem leaf_node_num_cells_set_leaf_node_cell (n : Node) (i : Nat) (c : Nat × Row) :
    leaf_node_num_cells (set_leaf_node_cell n i c) = leaf_node_num_cells n := rfl

@[simp] theorem leaf_node_num_cells_set_internal_node_cell (n : Node) (i : Nat) (c : Nat × Nat) :
    leaf_node_num_cells (set_internal_node_cell n i c) = leaf_node_num_cells n := rfl

@[simp] theorem leaf_node_num_cells_initialize_leaf_node (n : Node) :
    leaf_node_num_cells (initialize_leaf_node n) = 0 := rfl

@[simp] theorem leaf_node_num_cells_initialize_internal_node (n : Node) :
    leaf_node_num_cells (initialize_internal_node n) = 0 := rfl

@[simp] theorem internal_node_num_keys_set_node_root (n : Node) (b : Bool) :
    internal_node_num_keys (set_node_root n b) = internal_node_num_keys n := rfl

@[simp] theorem internal_node_num_keys_set_node_parent (n : Node) (p : Nat) :
    internal_node_num_keys (set_node_parent n p) = internal_node_num_keys n := rfl

@[simp] theorem internal_node_num_keys_set_leaf_node_num_cells (n : Node) (c : Nat) :
    internal_node_num_keys (set_leaf_node_num_cells n c) = c := rfl

@[simp] theorem internal_node_num_keys_set_internal_node_num_keys (n : Node) (c : Nat) :
    internal_node_num_keys (set_internal_node_num_keys n c) = c := rfl

@[simp] theorem internal_node_num_keys_set_leaf_node_next_leaf (n : Node) (p : Nat) :
    internal_node_num_keys (set_leaf_node_next_leaf n p) = internal_node_num_keys n := rfl

@[simp] theorem internal_node_num_keys_set_internal_node_right_child (n : Node) (p : Nat) :
    internal_node_num_keys (set_internal_node_right_child n p) = internal_node_num_keys n := rfl

@[simp] theorem internal_node_num_keys_set_leaf_node_cell (n : Node) (i : Nat) (c : Nat × Row) :
    internal_node_num_keys (set_leaf_node_cell n i c) = internal_node_num_keys n := rfl

@[simp] theorem internal_node_num_keys_set_internal_node_cell (n : Node) (i : Nat) (c : Nat × Nat) :
    internal_node_num_keys (set_internal_node_cell n i c) = internal_node_num_keys n := rfl

@[simp] theorem internal_node_num_keys_initialize_leaf_node (n : Node) :
    internal_node_num_keys (initialize_leaf_node n) = 0 := rfl

@[simp] theorem internal_node_num_keys_initialize_internal_node (n : Node) :
    internal_node_num_keys (initialize_internal_node n) = 0 := rfl

@[simp] theorem leaf_node_next_leaf_set_node_root (n : Node) (b : Bool) :
    leaf_node_next_leaf (set_node_root n b) = leaf_node_next_leaf n := rfl

@[simp] theorem leaf_node_next_leaf_set_node_parent (n : Node) (p : Nat) :
    leaf_node_next_leaf (set_node_parent n p) = leaf_node_next_leaf n := rfl

@[simp] theorem leaf_node_next_leaf_set_leaf_node_num_cells (n : Node) (c : Nat) :
    leaf_node_next_leaf (set_leaf_node_num_cells n c) = leaf_node_next_leaf n := rfl

@[simp] theorem leaf_node_next_leaf_set_internal_node_num_keys (n : Node) (c : Nat) :
    leaf_node_next_leaf (set_internal_node_num_keys n c) = leaf_node_next_leaf n := rfl

@[simp] theorem leaf_node_next_leaf_set_leaf_node_next_leaf (n : Node) (p : Nat) :
    leaf_node_next_leaf (set_leaf_node_next_leaf n p) = p := rfl

@[simp] theorem leaf_node_next_leaf_set_internal_node_right_child (n : Node) (p : Nat) :
    leaf_node_next_leaf (set_internal_node_right_child n p) = p := rfl

@[simp] theorem leaf_node_next_leaf_set_leaf_node_cell (n : Node) (i : Nat) (c : Nat × Row) :
    leaf_node_next_leaf (set_leaf_node_cell n i c) = leaf_node_next_leaf n := rfl

@[simp] theorem leaf_node_next_leaf_set_internal_node_cell (n : Node) (i : Nat) (c : Nat × Nat) :
    leaf_node_next_leaf (set_internal_node_cell n i c) = leaf_node_next_leaf n := rfl

@[simp] theorem leaf_node_next_leaf_initialize_leaf_node (n : Node) :
    leaf_node_next_leaf (initialize_leaf_node n) = 0 := rfl

@[simp] theorem leaf_node_next_leaf_initialize_internal_node (n : Node) :
    leaf_node_next_leaf (initialize_internal_node n) = leaf_node_next_leaf n := rfl

@[simp] theorem internal_node_right_child_set_node_root (n : Node) (b : Bool) :
    internal_node_right_child (set_node_root n b) = internal_node_right_child n := rfl

@[simp] theorem internal_node_right_child_set_node_parent (n : Node) (p : Nat) :
    internal_node_right_child (set_node_parent n p) = internal_node_right_child n := rfl

@[simp] theorem internal_node_right_child_set_leaf_node_num_cells (n : Node) (c : Nat) :
    internal_node_right_child (set_leaf_node_num_cells n c) = internal_node_right_child n := rfl

@[simp] theorem internal_node_right_child_set_internal_node_num_keys (n : Node) (c : Nat) :
    internal_node_right_child (set_internal_node_num_keys n c) = internal_node_right_child n := rfl

@[simp] theorem internal_node_right_child_set_leaf_node_next_leaf (n : Node) (p : Nat) :
    internal_node_right_child (set_leaf_node_next_leaf n p) = p := rfl

@[simp] theorem internal_node_right_child_set_internal_node_right_child (n : Node) (p : Nat) :
    internal_node_right_child (set_internal_node_right_child n p) = p := rfl

@[simp] theorem internal_node_right_child_set_leaf_node_cell (n : Node) (i : Nat) (c : Nat × Row) :
    internal_node_right_child (set_leaf_node_cell n i c) = internal_node_right_child n := rfl

@[simp] theorem internal_node_right_child_set_internal_node_cell (n : Node) (i : Nat) (c : Nat × Nat) :
    internal_node_right_child (set_internal_node_cell n i c) = internal_node_right_child n := rfl

@[simp] theorem internal_node_right_child_initialize_leaf_node (n : Node) :
    internal_node_right_child (initialize_leaf_node n) = 0 := rfl

@[simp] theorem internal_node_right_child_initialize_internal_node (n : Node) :
    internal_node_right_child (initialize_internal_node n) = internal_node_right_child n := rfl

@[simp] theorem leaf_node_cell_set_internal_node_cell (n : Node) (i : Nat)
    (c : Nat × Nat) (j : Nat) :
    leaf_node_cell (set_internal_node_cell n i c) j = leaf_node_cell n j := rfl

@[simp] theorem internal_node_cell_set_leaf_node_cell (n : Node) (i : Nat)
    (c : Nat × Row) (j : Nat) :
    internal_node_cell (set_leaf_node_cell n i c) j = internal_node_cell n j := rfl

@[simp] theorem leaf_node_cell_set_node_root (n : Node) (b : Bool) (j : Nat) :
    leaf_node_cell (set_node_root n b) j = leaf_node_cell n j := rfl

@[simp] theorem leaf_node_cell_set_node_parent (n : Node) (p : Nat) (j : Nat) :
    leaf_node_cell (set_node_parent n p) j = leaf_node_cell n j := rfl

@[simp] theorem leaf_node_cell_set_leaf_node_num_cells (n : Node) (c : Nat) (j : Nat) :
    leaf_node_cell (set_leaf_node_num_cells n c) j = leaf_node_cell n j := rfl

@[simp] theorem leaf_node_cell_set_internal_node_num_keys (n : Node) (c : Nat) (j : Nat) :
    leaf_node_cell (set_internal_node_num_keys n c) j = leaf_node_cell n j := rfl

@[simp] theorem leaf_node_cell_set_leaf_node_next_leaf (n : Node) (p : Nat) (j : Nat) :
    leaf_node_cell (set_leaf_node_next_leaf n p) j = leaf_node_cell n j := rfl

@[simp] theorem leaf_node_cell_set_internal_node_right_child (n : Node) (p : Nat) (j : Nat) :
    leaf_node_cell (set_internal_node_right_child n p) j = leaf_node_cell n j := rfl

@[simp] theorem leaf_node_cell_initialize_leaf_node (n : Node) (j : Nat) :
    leaf_node_cell (initialize_leaf_node n) j = leaf_node_cell n j := rfl

@[simp] theorem leaf_node_cell_initialize_internal_node (n : Node) (j : Nat) :
    leaf_node_cell (initialize_internal_node n) j = leaf_node_cell n j := rfl

@[simp] theorem internal_node_cell_set_node_root (n : Node) (b : Bool) (j : Nat) :
    internal_node_cell (set_node_root n b) j = internal_node_cell n j := rfl

@[simp] theorem internal_node_cell_set_node_parent (n : Node) (p : Nat) (j : Nat) :
    internal_node_cell (set_node_parent n p) j = internal_node_cell n j := rfl

@[simp] theorem internal_node_cell_set_leaf_node_num_cells (n : Node) (c : Nat) (j : Nat) :
    internal_node_cell (set_leaf_node_num_cells n c) j = internal_node_cell n j := rfl

@[simp] theorem internal_node_cell_set_internal_node_num_keys (n : Node) (c : Nat) (j : Nat) :
    internal_node_cell (set_internal_node_num_keys n c) j = internal_node_cell n j := rfl

@[simp] theorem internal_node_cell_set_leaf_node_next_leaf (n : Node) (p : Nat) (j : Nat) :
    internal_node_cell (set_leaf_node_next_leaf n p) j = internal_node_cell n j := rfl

@[simp] theorem internal_node_cell_set_internal_node_right_child (n : Node) (p : Nat) (j : Nat) :
    internal_node_cell (set_internal_node_right_child n p) j = internal_node_cell n j := rfl

@[simp] theorem internal_node_cell_initialize_leaf_node (n : Node) (j : Nat) :
    internal_node_cell (initialize_leaf_node n) j = internal_node_cell n j := rfl

@[simp] theorem internal_node_cell_initialize_internal_node (n : Node) (j : Nat) :
    internal_node_cell (initialize_internal_node n) j = internal_node_cell n j := rfl

/-! ## Binary-search loop characterizations -/

/-- Lower-bound invariant of the `internal_node_find_child` loop body:
on a window `[lo, hi)` of an ascending key array with everything left
of `lo` below `key` and everything right of `hi` at or above `key`,
the loop lands on the boundary. -/
theorem internalFindChildLoopF_spec (node : Node) (key n : Nat)
    (hsorted : ∀ j, j < n → ∀ i, i < j →
      internal_node_key node i ≤ internal_node_key node j) :
    ∀ (fuel lo hi : Nat), hi - lo ≤ fuel → lo ≤ hi → hi ≤ n →
    (∀ i, i < lo → internal_node_key node i < key) →
    (∀ i, hi ≤ i → i < n → key ≤ internal_node_key node i) →
    lo ≤ internalFindChildLoopF node key fuel lo hi ∧
    internalFindChildLoopF node key fuel lo hi ≤ hi ∧
    (∀ i, i < internalFindChildLoopF node key fuel lo hi →
      internal_node_key node i < key) ∧
    (∀ i, internalFindChildLoopF node key fuel lo hi ≤ i → i < n →
      key ≤ internal_node_key node i) := by
  intro fuel
  induction fuel with
  | zero =>
    intro lo hi hf hlh hhn hlo hhi
    simp only [internalFindChildLoopF]
    exact ⟨le_refl lo, hlh, hlo, fun i hri hin => hhi i (by omega) hin⟩
  | succ m ih =>
    intro lo hi hf hlh hhn hlo hhi
    simp only [internalFindChildLoopF]
    split
    case isTrue h =>
      split
      case isTrue hk =>
        have hhi2 : ∀ i, (lo + hi) / 2 ≤ i → i < n →
            key ≤ internal_node_key node i := by
          intro i hmi hin
          rcases Nat.eq_or_lt_of_le hmi with heq | hlt
          · rw [← heq]; exact hk
          · exact le_trans hk (hsorted i hin _ hlt)
        have hrec := ih lo ((lo + hi) / 2) (by omega) (by omega) (by omega) hlo hhi2
        exact ⟨hrec.1, le_trans hrec.2.1 (by omega), hrec.2.2.1, hrec.2.2.2⟩
      case isFalse hk =>
        have hlo2 : ∀ i, i < (lo + hi) / 2 + 1 → internal_node_key node i < key := by
          intro i hi2
          rcases Nat.lt_succ_iff_lt_or_eq.mp hi2 with hlt | heq
          · exact lt_of_le_of_lt (hsorted _ (by omega) _ hlt) (by omega)
          · rw [heq]; omega
        have hrec := ih ((lo + hi) / 2 + 1) hi (by omega) (by omega) hhn hlo2 hhi
        exact ⟨le_trans (by omega) hrec.1, hrec.2.1, hrec.2.2.1, hrec.2.2.2⟩
    case isFalse h =>
      exact ⟨le_refl lo, by omega, hlo, fun i hri hin => hhi i (by omega) hin⟩

/-- The lower-bound invariant, stated for `internalFindChildLoop`. -/
theorem internalFindChildLoop_spec (node : Node) (key n : Nat)
    (hsorted : ∀ j, j < n → ∀ i, i < j →
      internal_node_key node i ≤ internal_node_key node j)
    (lo hi : Nat) (hlh : lo ≤ hi) (hhn : hi ≤ n)
    (hlo : ∀ i, i < lo → internal_node_key node i < key)
    (hhi : ∀ i, hi ≤ i → i < n → key ≤ internal_node_key node i) :
    lo ≤ internalFindChildLoop node key lo hi ∧
    internalFindChildLoop node key lo hi ≤ hi ∧
    (∀ i, i < internalFindChildLoop node key lo hi →
      internal_node_key node i < key) ∧
    (∀ i, internalFindChildLoop node key lo hi ≤ i → i < n →
      key ≤ internal_node_key node i) :=
  internalFindChildLoopF_spec node key n hsorted (hi - lo) lo hi (le_refl _)
    hlh hhn hlo hhi

/-- Lower-bound invariant of the `leaf_node_find` loop body, under
strictly ascending keys; the early return on an exact match lands on
the same boundary index. -/
theorem leafFindLoopF_spec (node : Node) (key n : Nat)
    (hsorted : ∀ j, j < n → ∀ i, i < j →
      leaf_node_key node i < leaf_node_key node j) :
    ∀ (fuel lo hi : Nat), hi - lo ≤ fuel → lo ≤ hi → hi ≤ n →
    (∀ i, i < lo → leaf_node_key node i < key) →
    (∀ i, hi ≤ i → i < n → key ≤ leaf_node_key node i) →
    lo ≤ leafFindLoopF node key fuel lo hi ∧
    leafFindLoopF node key fuel lo hi ≤ hi ∧
    (∀ i, i < leafFindLoopF node key fuel lo hi → leaf_node_key node i < key) ∧
    (∀ i, leafFindLoopF node key fuel lo hi ≤ i → i < n →
      key ≤ leaf_node_key node i) := by
  intro fuel
  induction fuel with
  | zero =>
    intro lo hi hf hlh hhn hlo hhi
    simp only [leafFindLoopF]
    exact ⟨le_refl lo, hlh, hlo, fun i hri hin => hhi i (by omega) hin⟩
  | succ m ih =>
    intro lo hi hf hlh hhn hlo hhi
    simp only [leafFindLoopF]
    split
    case isTrue h =>
      split
      case isTrue heq =>
        refine ⟨by omega, by omega, ?_, ?_⟩
        · intro i hi2
          exact lt_of_lt_of_le (hsorted _ (by omega) _ hi2) (le_of_eq heq.symm)
        · intro i hmi hin
          rcases Nat.eq_or_lt_of_le hmi with heq2 | hlt
          · rw [← heq2]; exact le_of_eq heq
          · exact le_of_lt (lt_of_le_of_lt (le_of_eq heq) (hsorted i hin _ hlt))
      case isFalse hne =>
        split
        case isTrue hk =>
          have hhi2 : ∀ i, (lo + hi) / 2 ≤ i → i < n →
              key ≤ leaf_node_key node i := by
            intro i hmi hin
            rcases Nat.eq_or_lt_of_le hmi with heq2 | hlt
            · rw [← heq2]; omega
            · exact le_of_lt (lt_trans hk (hsorted i hin _ hlt))
          have hrec := ih lo ((lo + hi) / 2) (by omega) (by omega) (by omega) hlo hhi2
          exact ⟨hrec.1, le_trans hrec.2.1 (by omega), hrec.2.2.1, hrec.2.2.2⟩
        case isFalse hk =>
          have hlo2 : ∀ i, i < (lo + hi) / 2 + 1 → leaf_node_key node i < key := by
            intro i hi2
            rcases Nat.lt_succ_iff_lt_or_eq.mp hi2 with hlt | heq2
            · exact lt_of_lt_of_le (hsorted _ (by omega) _ hlt) (by omega)
            · rw [heq2]; omega
          have hrec := ih ((lo + hi) / 2 + 1) hi (by omega) (by omega) hhn hlo2 hhi
          exact ⟨le_trans (by omega) hrec.1, hrec.2.1, hrec.2.2.1, hrec.2.2.2⟩
    case isFalse h =>
      exact ⟨le_refl lo, by omega, hlo, fun i hri hin => hhi i (by omega) hin⟩

/-- The lower-bound invariant, stated for `leafFindLoop`. -/
theorem leafFindLoop_spec (node : Node) (key n : Nat)
    (hsorted : ∀ j, j < n → ∀ i, i < j →
      leaf_node_key node i < leaf_node_key node j)
    (lo hi : Nat) (hlh : lo ≤ hi) (hhn : hi ≤ n)
    (hlo : ∀ i, i < lo → leaf_node_key node i < key)
    (hhi : ∀ i, hi ≤ i → i < n → key ≤ leaf_node_key node i) :
    lo ≤ leafFindLoop node key lo hi ∧
    leafFindLoop node key lo hi ≤ hi ∧
    (∀ i, i < leafFindLoop node key lo hi → leaf_node_key node i < key) ∧
    (∀ i, leafFindLoop node key lo hi ≤ i → i < n →
      key ≤ leaf_node_key node i) :=
  leafFindLoopF_spec node key n hsorted (hi - lo) lo hi (le_refl _) hlh hhn hlo hhi

/-! ## Helper facts about the find routines -/

theorem leaf_node_find_cursor (t : Table) (page_num key : Nat) (g : Bool) :
    (leaf_node_find t page_num key g).2 =
      { page_num := page_num,
        cell_num := leafFindLoop (get_page t.pager page_num).2 key 0
          (leaf_node_num_cells (get_page t.pager page_num).2),
        end_of_table := g } := rfl

theorem internal_node_find_flag (fuel : Nat) :
    ∀ (t : Table) (page_num key : Nat) (g : Bool) (t1 : Table) (c : Cursor),
    internal_node_find fuel t page_num key g = some (t1, c) →
    c.end_of_table = g := by
  induction fuel with
  | zero =>
    intro t page_num key g t1 c h
    simp [internal_node_find] at h
  | succ n ih =>
    intro t page_num key g t1 c h
    rw [internal_node_find] at h
    split at h
    · rw [Option.some_inj] at h
      have : c = (Prod.mk t1 c).2 := rfl
      rw [this, ← h, leaf_node_find_cursor]
    · exact ih _ _ _ _ _ _ h

/-- Whichever branch `table_find` resolves through, the cursor's
`end_of_table` field keeps the value the allocation held: no routine on
the find path ever writes the flag. -/
theorem table_find_flag (t : Table) (key : Nat) (g : Bool) (t1 : Table)
    (c : Cursor) (h : table_find t key g = some (t1, c)) :
    c.end_of_table = g := by
  rw [table_find] at h
  split at h
  · rw [Option.some_inj] at h
    have : c = (Prod.mk t1 c).2 := rfl
    rw [this, ← h, leaf_node_find_cursor]
  · exact internal_node_find_flag _ _ _ _ _ _ _ h

/-! ## Claim C1 -/

/-- C1: on a leaf page whose first `num_cells` keys are strictly
ascending, `leaf_node_find` returns a cursor on that page whose cell
index is the index of the cell whose key equals the search key when one
exists, and otherwise the index of the first cell whose key is strictly
greater than the search key (the cell count when no key is greater) —
the sorted insertion point. -/
theorem C1_leaf_node_find_correct (t : Table) (page_num key : Nat) (g : Bool)
    (hsorted : ∀ j, j < leaf_node_num_cells (get_page t.pager page_num).2 →
      ∀ i, i < j → leaf_node_key (get_page t.pager page_num).2 i <
        leaf_node_key (get_page t.pager page_num).2 j) :
    (leaf_node_find t page_num key g).2.page_num = page_num ∧
    (leaf_node_find t page_num key g).2.cell_num ≤
      leaf_node_num_cells (get_page t.pager page_num).2 ∧
    (∀ j, j < leaf_node_num_cells (get_page t.pager page_num).2 →
      leaf_node_key (get_page t.pager page_num).2 j = key →
      (leaf_node_find t page_num key g).2.cell_num = j) ∧
    ((∀ j, j < leaf_node_num_cells (get_page t.pager page_num).2 →
        leaf_node_key (get_page t.pager page_num).2 j ≠ key) →
      (∀ i, i < (leaf_node_find t page_num key g).2.cell_num →
        leaf_node_key (get_page t.pager page_num).2 i < key) ∧
      (∀ i, (leaf_node_find t page_num key g).2.cell_num ≤ i →
        i < leaf_node_num_cells (get_page t.pager page_num).2 →
        key < leaf_node_key (get_page t.pager page_num).2 i)) := by
  set node := (get_page t.pager page_num).2 with hnode
  set n := leaf_node_num_cells node with hn
  have hspec := leafFindLoop_spec node key n hsorted 0 n (Nat.zero_le n)
    (le_refl n) (fun i hi => absurd hi (Nat.not_lt_zero i))
    (fun i h1 h2 => absurd h1 (by omega))
  have hcell : (leaf_node_find t page_num key g).2.cell_num =
      leafFindLoop node key 0 n := by
    rw [leaf_node_find_cursor]
  refine ⟨rfl, ?_, ?_, ?_⟩
  · rw [hcell]; exact hspec.2.1
  · intro j hj hkey
    rw [hcell]
    rcases Nat.lt_trichotomy (leafFindLoop node key 0 n) j with hlt | heq | hgt
    · have := hsorted j hj _ hlt
      have := hspec.2.2.2 _ (le_refl _) (by omega)
      omega
    · exact heq
    · have := hspec.2.2.1 _ hgt
      omega
  · intro habsent
    constructor
    · intro i hi2
      rw [hcell] at hi2
      exact hspec.2.2.1 _ hi2
    · intro i h1 h2
      rw [hcell] at h1
      have := hspec.2.2.2 _ h1 h2
      have := habsent i h2
      omega

/-- Witness for C1: on the concrete leaf with keys 2, 5, 9, searching
for the present key 5 lands on cell 1, and the sortedness hypothesis
holds. -/
theorem C1_witness :
    (∀ j, j < leaf_node_num_cells (get_page demoLeafTable.pager 0).2 →
      ∀ i, i < j → leaf_node_key (get_page demoLeafTable.pager 0).2 i <
        leaf_node_key (get_page demoLeafTable.pager 0).2 j) ∧
    (∀ j, j < leaf_node_num_cells (get_page demoLeafTable.pager 0).2 →
      leaf_node_key (get_page demoLeafTable.pager 0).2 j = 5 →
      (leaf_node_find demoLeafTable 0 5 false).2.cell_num = j) :=
  ⟨by decide, (C1_leaf_node_find_correct demoLeafTable 0 5 false (by decide)).2.2.1⟩

/-! ## Claim C6 -/

/-- C6: on an internal node whose separator keys are sorted ascending,
`internal_node_find_child` returns the smallest index `i` in
`[0, key_count]` with separator key `i ≥ k` — every index below the
result carries a separator `< k`, every index from the result up to the
key count carries a separator `≥ k`, and the result is `key_count`
exactly when every separator is `< k`. -/
theorem C6_internal_node_find_child_lower_bound (node : Node) (key : Nat)
    (hsorted : ∀ j, j < internal_node_num_keys node → ∀ i, i < j →
      internal_node_key node i ≤ internal_node_key node j) :
    internal_node_find_child node key ≤ internal_node_num_keys node ∧
    (∀ i, i < internal_node_find_child node key →
      internal_node_key node i < key) ∧
    (∀ i, internal_node_find_child node key ≤ i →
      i < internal_node_num_keys node →
      key ≤ internal_node_key node i) := by
  have h := internalFindChildLoop_spec node key (internal_node_num_keys node)
    hsorted 0 (internal_node_num_keys node) (Nat.zero_le _) (le_refl _)
    (fun i hi => absurd hi (Nat.not_lt_zero i))
    (fun i h1 h2 => absurd h1 (by omega))
  exact ⟨h.2.1, h.2.2.1, h.2.2.2⟩

/-- Witness for C6: on the concrete internal node with separators
10, 20, 30, searching key 15 yields child index 1; hypothesis and the
bound of the conclusion evaluated there. -/
theorem C6_witness :
    (∀ j, j < internal_node_num_keys demoInternalNode → ∀ i, i < j →
      internal_node_key demoInternalNode i ≤ internal_node_key demoInternalNode j) ∧
    internal_node_find_child demoInternalNode 15 ≤
      internal_node_num_keys demoInternalNode ∧
    (∀ i, i < internal_node_find_child demoInternalNode 15 →
      internal_node_key demoInternalNode i < 15) :=
  ⟨by decide,
   (C6_internal_node_find_child_lower_bound demoInternalNode 15 (by decide)).1,
   (C6_internal_node_find_child_lower_bound demoInternalNode 15 (by decide)).2.1⟩

/-! ## Claim C8 -/

/-- Counterexample to C8 as stated: `leaf_node_find` writes `table`,
`page_num` and `cell_num` of the malloc'd cursor and never its
`end_of_table` field, so the flag keeps the allocation's indeterminate
content; when that content is `true`, the cursor `table_find` returns
carries `true`, not `false`.  Concrete run on the fresh single-leaf
table. -/
theorem C8_counterexample :
    ∃ p, table_find db_open_fresh 5 true = some p ∧ p.2.end_of_table = true := by
  refine ⟨(table_find db_open_fresh 5 true).get (by decide), ?_, by decide⟩
  decide

/-- C8 amended: the cursor `table_find` returns (directly through
`leaf_node_find` or through the `internal_node_find` recursion) has its
`end_of_table` field equal to the indeterminate content `g` the cursor
allocation held — the find path never writes the flag, and in
particular never sets it to `false`; `table_start` is the caller that
assigns it. -/
theorem C8_table_find_leaves_flag_unwritten (t : Table) (key : Nat) (g : Bool)
    (t1 : Table) (c : Cursor) (h : table_find t key g = some (t1, c)) :
    c.end_of_table = g :=
  table_find_flag t key g t1 c h

/-- Witness for C8 (amended): concrete run of `table_find` on the
fresh table with allocation content `true`. -/
theorem C8_witness :
    table_find db_open_fresh 5 true =
      some ({ pager := { pages := [set_node_root (initialize_leaf_node zeroPage) true] },
              root_page_num := 0 },
            { page_num := 0, cell_num := 0, end_of_table := true }) ∧
    ({ page_num := 0, cell_num := 0, end_of_table := true } : Cursor).end_of_table = true :=
  ⟨by decide,
   C8_table_find_leaves_flag_unwritten db_open_fresh 5 true
     { pager := { pages := [set_node_root (initialize_leaf_node zeroPage) true] },
       root_page_num := 0 }
     { page_num := 0, cell_num := 0, end_of_table := true } (by decide)⟩

/-! ## Claim C10 -/

/-- C10: once a cursor's `end_of_table` flag is `true`, any number of
further `cursor_advance` calls leaves it `true` — `cursor_advance`
never writes `false` into the flag, so iteration cannot resume past the
end of the table. -/
theorem C10_cursor_advance_keeps_end_of_table (t : Table) (c : Cursor) (n : Nat)
    (h : c.end_of_table = true) :
    (advanceIter n (t, c)).2.end_of_table = true := by
  induction n generalizing t c with
  | zero => exact h
  | succ m ih =>
    show (advanceIter m (cursor_advance t c)).2.end_of_table = true
    have hstep : (cursor_advance t c).2.end_of_table = true := by
      rw [cursor_advance]
      split
      · split
        · rfl
        · exact h
      · exact h
    have := ih (cursor_advance t c).1 (cursor_advance t c).2 hstep
    exact this

/-- Witness for C10: a concrete ended cursor on the fresh table stays
ended after three advances. -/
theorem C10_witness :
    ({ page_num := 0, cell_num := 0, end_of_table := true } : Cursor).end_of_table = true ∧
    (advanceIter 3 (db_open_fresh,
      { page_num := 0, cell_num := 0, end_of_table := true })).2.end_of_table = true :=
  ⟨rfl, C10_cursor_advance_keeps_end_of_table db_open_fresh
    { page_num := 0, cell_num := 0, end_of_table := true } 3 rfl⟩

/-! ## Claim C4 -/

/-- Counterexample to C4 as stated: on a table whose root internal node
already holds `INTERNAL_NODE_MAX_CELLS` keys, registering one more
child does raise the designated capacity-exhaustion failure, but the
parent's stored state is NOT unchanged when the failure is raised —
src/table.c lines 285-286 store `original_num_keys + 1` into the
parent's key count BEFORE the capacity check at line 288, so the state
at the exit carries key count `INTERNAL_NODE_MAX_CELLS + 1`. -/
theorem C4_counterexample :
    internal_node_insert fullParentTable 0 5 =
      DbResult.fatal "Need to implement splitting internal node" c4FatalState ∧
    internal_node_num_keys (fullParentTable.pager.read 0) =
      INTERNAL_NODE_MAX_CELLS ∧
    internal_node_num_keys (c4FatalState.pager.read 0) =
      INTERNAL_NODE_MAX_CELLS + 1 := by
  refine ⟨by decide, by decide, by decide⟩

/-- C4 amended: when `internal_node_insert` meets a parent whose key
count is already at (or past) `INTERNAL_NODE_MAX_CELLS`, it fails
fatally with the designated capacity-exhaustion condition before any
mutation OTHER than the key-count increment: the state at the failure
is exactly the pre-call state with the parent's key count incremented
by one (src/table.c lines 285-291); cells, children, right-child and
every other page are untouched. -/
theorem C4_internal_node_insert_fatal (t : Table)
    (parent_page_num child_page_num : Nat)
    (hp : parent_page_num < t.pager.numPages)
    (hc : child_page_num < t.pager.numPages)
    (hfull : internal_node_num_keys (t.pager.read parent_page_num) ≥
      INTERNAL_NODE_MAX_CELLS) :
    internal_node_insert t parent_page_num child_page_num =
      DbResult.fatal "Need to implement splitting internal node"
        { t with pager := (write_page t.pager parent_page_num
            (set_internal_node_num_keys (t.pager.read parent_page_num)
              (internal_node_num_keys (t.pager.read parent_page_num) + 1))) } := by
  have h1 : ensurePage t.pager parent_page_num = t.pager :=
    ensurePage_of_lt _ _ hp
  have h2 : ensurePage t.pager child_page_num = t.pager :=
    ensurePage_of_lt _ _ hc
  simp only [internal_node_insert, get_page, h1, h2, Pager.read]
  rw [if_pos]
  exact hfull

/-- Witness for C4 (amended): the amended description applied to the
concrete full parent of `fullParentTable`. -/
theorem C4_witness :
    (0 < fullParentTable.pager.numPages ∧ 5 < fullParentTable.pager.numPages ∧
      internal_node_num_keys (fullParentTable.pager.read 0) ≥
        INTERNAL_NODE_MAX_CELLS) ∧
    internal_node_insert fullParentTable 0 5 =
      DbResult.fatal "Need to implement splitting internal node"
        { fullParentTable with pager := (write_page fullParentTable.pager 0
            (set_internal_node_num_keys (fullParentTable.pager.read 0)
              (internal_node_num_keys (fullParentTable.pager.read 0) + 1))) } :=
  ⟨⟨by decide, by decide, by decide⟩,
   C4_internal_node_insert_fatal fullParentTable 0 5 (by decide) (by decide)
     (by decide)⟩

/-! ## Claim C5 -/

/-- C5: `create_new_root` allocates a fresh page (the page count rises
by one and the new page is the previous page count `N`), copies the
root page into it verbatim with the root flag cleared and the parent
reference set to page 0 — so the copy differs from the old root in
exactly those two header fields — reinitializes page 0 as an internal
node marked root with exactly one separator key equal to the left
child's maximum key, child 0 = the copied left child's page, rightmost
child = `r`, and sets the right child's parent reference to page 0
(leaving the right child otherwise unchanged). -/
theorem C5_create_new_root_correct (t : Table) (r : Nat)
    (hroot : t.root_page_num = 0)
    (h0 : 0 < t.pager.numPages)
    (hr : r < t.pager.numPages)
    (hne : r ≠ 0) :
    (create_new_root t r).root_page_num = 0 ∧
    (create_new_root t r).pager.numPages = t.pager.numPages + 1 ∧
    (create_new_root t r).pager.read t.pager.numPages =
      set_node_parent (set_node_root (t.pager.read 0) false) 0 ∧
    get_node_type ((create_new_root t r).pager.read 0) = NodeType.internal ∧
    is_node_root ((create_new_root t r).pager.read 0) = true ∧
    internal_node_num_keys ((create_new_root t r).pager.read 0) = 1 ∧
    internal_node_child ((create_new_root t r).pager.read 0) 0 =
      t.pager.numPages ∧
    internal_node_key ((create_new_root t r).pager.read 0) 0 =
      get_node_max_key ((create_new_root t r).pager.read t.pager.numPages) ∧
    internal_node_right_child ((create_new_root t r).pager.read 0) = r ∧
    (create_new_root t r).pager.read r = set_node_parent (t.pager.read r) 0 := by
  have e0 : ensurePage t.pager 0 = t.pager := ensurePage_of_lt _ _ h0
  have er : ensurePage t.pager r = t.pager := ensurePage_of_lt _ _ hr
  simp only [create_new_root, get_page_fst, get_page_snd, get_unused_page_num,
    hroot, e0, er, read_ensurePage]
  have hnr : t.pager.numPages ≠ r := by omega
  have h0n : (0 : Nat) ≠ t.pager.numPages := by omega
  have hread0 :
      ∀ nd1 nd2 nd3,
        ((write_page (write_page (write_page (ensurePage t.pager t.pager.numPages)
            0 nd1) t.pager.numPages nd2) r nd3).read 0) = nd1 := by
    intro nd1 nd2 nd3
    rw [read_write_page_other _ _ _ _ (Ne.symm hne),
      read_write_page_other _ _ _ _ h0n, read_write_page_same]
  refine ⟨by simp [hroot], ?_, ?_, ?_, ?_, ?_, ?_, ?_, ?_, ?_⟩
  · rw [numPages_write_page, numPages_write_page, numPages_write_page,
      numPages_ensurePage]
    omega
  · rw [read_write_page_other _ _ _ _ hnr, read_write_page_same]
  · rw [hread0]
    rfl
  · rw [hread0]
    rfl
  · rw [hread0]
    rfl
  · rw [hread0]
    simp only [internal_node_child, internal_node_num_keys, internal_node_key,
      set_internal_node_right_child, set_internal_node_key,
      set_internal_node_child, set_internal_node_cell,
      set_internal_node_num_keys, set_node_root, initialize_internal_node,
      internal_node_cell, getD_setSlot_same]
    norm_num
  · rw [hread0, read_write_page_other _ _ _ _ hnr, read_write_page_same,
      get_node_max_key_set_node_parent]
    simp only [internal_node_child, internal_node_num_keys, internal_node_key,
      set_internal_node_right_child, set_internal_node_key,
      set_internal_node_child, set_internal_node_cell,
      set_internal_node_num_keys, set_node_root, initialize_internal_node,
      internal_node_cell, getD_setSlot_same]
  · rw [hread0]
    rfl
  · rw [read_write_page_same]

/-- Witness for C5: root promotion on the concrete two-page table
`c5Table` with right child page 1. -/
theorem C5_witness :
    (c5Table.root_page_num = 0 ∧ 0 < c5Table.pager.numPages ∧
      1 < c5Table.pager.numPages ∧ (1 : Nat) ≠ 0) ∧
    ((create_new_root c5Table 1).root_page_num = 0 ∧
     (create_new_root c5Table 1).pager.numPages = c5Table.pager.numPages + 1 ∧
     (create_new_root c5Table 1).pager.read c5Table.pager.numPages =
       set_node_parent (set_node_root (c5Table.pager.read 0) false) 0 ∧
     get_node_type ((create_new_root c5Table 1).pager.read 0) =
       NodeType.internal ∧
     is_node_root ((create_new_root c5Table 1).pager.read 0) = true ∧
     internal_node_num_keys ((create_new_root c5Table 1).pager.read 0) = 1 ∧
     internal_node_child ((create_new_root c5Table 1).pager.read 0) 0 =
       c5Table.pager.numPages ∧
     internal_node_key ((create_new_root c5Table 1).pager.read 0) 0 =
       get_node_max_key
         ((create_new_root c5Table 1).pager.read c5Table.pager.numPages) ∧
     internal_node_right_child ((create_new_root c5Table 1).pager.read 0) = 1 ∧
     (create_new_root c5Table 1).pager.read 1 =
       set_node_parent (c5Table.pager.read 1) 0) :=
  ⟨⟨rfl, by decide, by decide, by decide⟩,
   C5_create_new_root_correct c5Table 1 rfl (by decide) (by decide) (by decide)⟩

/-! ## Claim C7 -/

theorem internalFindChildLoopF_le (node : Node) (key : Nat) :
    ∀ (fuel lo hi : Nat), lo ≤ hi →
    lo ≤ internalFindChildLoopF node key fuel lo hi ∧
    internalFindChildLoopF node key fuel lo hi ≤ hi := by
  intro fuel
  induction fuel with
  | zero =>
    intro lo hi h
    simp only [internalFindChildLoopF]
    omega
  | succ m ih =>
    intro lo hi h
    simp only [internalFindChildLoopF]
    split
    case isTrue hlt =>
      split
      case isTrue hk =>
        have := ih lo ((lo + hi) / 2) (by omega)
        omega
      case isFalse hk =>
        have := ih ((lo + hi) / 2 + 1) hi (by omega)
        omega
    case isFalse hlt => omega

theorem internal_node_find_child_le (node : Node) (key : Nat) :
    internal_node_find_child node key ≤ internal_node_num_keys node :=
  (internalFindChildLoopF_le node key _ 0 _ (Nat.zero_le _)).2

/-- Effect of the `internal_node_insert` shifting loop: cells in
`(index, m]` hold the previous occupant of the slot one to the left,
every other cell and every non-cell field is untouched. -/
theorem internalShiftLoop_spec (index : Nat) :
    ∀ (m : Nat) (n : Node),
    (internalShiftLoop index n m).nodeType = n.nodeType ∧
    (internalShiftLoop index n m).isRoot = n.isRoot ∧
    (internalShiftLoop index n m).parent = n.parent ∧
    (internalShiftLoop index n m).count = n.count ∧
    (internalShiftLoop index n m).nextOrRight = n.nextOrRight ∧
    (internalShiftLoop index n m).leafCells = n.leafCells ∧
    (∀ j, j ≤ index →
      internal_node_cell (internalShiftLoop index n m) j = internal_node_cell n j) ∧
    (∀ j, m < j →
      internal_node_cell (internalShiftLoop index n m) j = internal_node_cell n j) ∧
    (∀ j, index < j → j ≤ m →
      internal_node_cell (internalShiftLoop index n m) j =
        internal_node_cell n (j - 1)) := by
  intro m
  induction m with
  | zero =>
    intro n
    exact ⟨rfl, rfl, rfl, rfl, rfl, rfl, fun j _ => rfl, fun j _ => rfl,
      fun j h1 h2 => absurd h1 (by omega)⟩
  | succ m ih =>
    intro n
    simp only [internalShiftLoop]
    split
    case isTrue h =>
      have IH := ih (set_internal_node_cell n (m + 1) (internal_node_cell n m))
      refine ⟨IH.1, IH.2.1, IH.2.2.1, IH.2.2.2.1, IH.2.2.2.2.1,
        IH.2.2.2.2.2.1, ?_, ?_, ?_⟩
      · intro j hj
        rw [IH.2.2.2.2.2.2.1 j hj,
          internal_node_cell_set_other _ _ _ _ (by omega)]
      · intro j hj
        rw [IH.2.2.2.2.2.2.2.1 j (by omega),
          internal_node_cell_set_other _ _ _ _ (by omega)]
      · intro j h1 h2
        rcases Nat.lt_or_ge j (m + 1) with hj | hj
        · rw [IH.2.2.2.2.2.2.2.2 j h1 (by omega),
            internal_node_cell_set_other _ _ _ _ (by omega)]
        · have hj2 : j = m + 1 := by omega
          rw [hj2, IH.2.2.2.2.2.2.2.1 (m + 1) (by omega),
            internal_node_cell_set_same]
          simp
    case isFalse h =>
      exact ⟨rfl, rfl, rfl, rfl, rfl, rfl, fun j _ => rfl, fun j _ => rfl,
        fun j h1 h2 => absurd h1 (by omega)⟩

/-- C7: on a parent below capacity, `internal_node_insert` with a new
child whose maximum key exceeds the current rightmost child's maximum
makes the new child the rightmost child and appends the old rightmost
child as a regular cell keyed by its own maximum at index `k` (the old
key count); otherwise the cells at or after the `find_child` insertion
index shift one slot rightward and the (new child page, new child's
maximum key) pair lands at that index; the stored key count becomes
`k + 1` in both cases. -/
theorem C7_internal_node_insert_correct (t : Table) (pp cp : Nat)
    (P : Node) (ck idx k rc : Nat) (P2 : Node)
    (hP : P = t.pager.read pp)
    (hck : ck = get_node_max_key (t.pager.read cp))
    (hidx : idx = internal_node_find_child P ck)
    (hk2 : k = internal_node_num_keys P)
    (hrceq : rc = internal_node_right_child P)
    (hp : pp < t.pager.numPages)
    (hc : cp < t.pager.numPages)
    (hk : k < INTERNAL_NODE_MAX_CELLS)
    (hrc : rc < t.pager.numPages)
    (hrcp : rc ≠ pp)
    (hP2 : P2 = ((internal_node_insert t pp cp).state).pager.read pp) :
    internal_node_insert t pp cp =
      DbResult.ok ((internal_node_insert t pp cp).state) ∧
    internal_node_num_keys P2 = k + 1 ∧
    (ck > get_node_max_key (t.pager.read rc) →
      internal_node_right_child P2 = cp ∧
      internal_node_cell P2 k = (rc, get_node_max_key (t.pager.read rc)) ∧
      (∀ i, i < k → internal_node_cell P2 i = internal_node_cell P i)) ∧
    (ck ≤ get_node_max_key (t.pager.read rc) →
      internal_node_right_child P2 = rc ∧
      internal_node_cell P2 idx = (cp, ck) ∧
      (∀ i, i < idx → internal_node_cell P2 i = internal_node_cell P i) ∧
      (∀ i, idx < i → i ≤ k →
        internal_node_cell P2 i = internal_node_cell P (i - 1))) := by
  subst hP hck hk2 hrceq hidx hP2
  have epp : ensurePage t.pager pp = t.pager := ensurePage_of_lt _ _ hp
  have ecp : ensurePage t.pager cp = t.pager := ensurePage_of_lt _ _ hc
  have hfc : ¬ (internal_node_num_keys (t.pager.read pp) ≥
      INTERNAL_NODE_MAX_CELLS) := by omega
  have e4 : ∀ nd, ensurePage (write_page t.pager pp nd)
      (internal_node_right_child (t.pager.read pp)) = write_page t.pager pp nd :=
    fun nd => ensurePage_of_lt _ _ (by rw [numPages_write_page]; omega)
  have hne4 : internal_node_num_keys (t.pager.read pp) ≠
      internal_node_num_keys (t.pager.read pp) + 1 := by omega
  simp only [internal_node_insert, get_page_fst, get_page_snd, epp, ecp,
    internal_node_right_child_set_internal_node_num_keys,
    internal_node_num_keys_set_internal_node_num_keys,
    if_neg hfc, e4, read_write_page_other _ _ _ _ hrcp]
  by_cases hcmp : get_node_max_key (t.pager.read cp) >
      get_node_max_key (t.pager.read (internal_node_right_child (t.pager.read pp)))
  · simp only [if_pos hcmp, DbResult.state, read_write_page_same]
    refine ⟨trivial, ?_, fun _ => ⟨?_, ?_, ?_⟩, fun h => absurd h (by omega)⟩
    · simp [set_internal_node_key, set_internal_node_child, if_neg hne4]
    · simp
    · simp only [set_internal_node_key, set_internal_node_child, if_neg hne4,
        internal_node_num_keys_set_internal_node_num_keys,
        internal_node_cell_set_internal_node_right_child,
        internal_node_cell_set_same]
    · intro i hi
      simp only [set_internal_node_key, set_internal_node_child, if_neg hne4,
        internal_node_num_keys_set_internal_node_num_keys,
        internal_node_cell_set_internal_node_right_child]
      rw [internal_node_cell_set_other _ _ _ _ (by omega),
        internal_node_cell_set_other _ _ _ _ (by omega)]
      simp
  · simp only [if_neg hcmp, DbResult.state, read_write_page_same]
    have hle := internal_node_find_child_le (t.pager.read pp)
      (get_node_max_key (t.pager.read cp))
    have HS := internalShiftLoop_spec
      (internal_node_find_child (t.pager.read pp)
        (get_node_max_key (t.pager.read cp)))
      (internal_node_num_keys (t.pager.read pp))
      (set_internal_node_num_keys (t.pager.read pp)
        (internal_node_num_keys (t.pager.read pp) + 1))
    have hcount : internal_node_num_keys
        (internalShiftLoop
          (internal_node_find_child (t.pager.read pp)
            (get_node_max_key (t.pager.read cp)))
          (set_internal_node_num_keys (t.pager.read pp)
            (internal_node_num_keys (t.pager.read pp) + 1))
          (internal_node_num_keys (t.pager.read pp))) =
        internal_node_num_keys (t.pager.read pp) + 1 := by
      show (internalShiftLoop _ _ _).count = _
      rw [HS.2.2.2.1]
      rfl
    have hne5 : internal_node_find_child (t.pager.read pp)
        (get_node_max_key (t.pager.read cp)) ≠
        internal_node_num_keys
          (internalShiftLoop
            (internal_node_find_child (t.pager.read pp)
              (get_node_max_key (t.pager.read cp)))
            (set_internal_node_num_keys (t.pager.read pp)
              (internal_node_num_keys (t.pager.read pp) + 1))
            (internal_node_num_keys (t.pager.read pp))) := by
      rw [hcount]; omega
    refine ⟨trivial, ?_, fun h => absurd h (by omega), fun _ => ⟨?_, ?_, ?_, ?_⟩⟩
    · simp only [set_internal_node_key, set_internal_node_child, if_neg hne5,
        internal_node_num_keys_set_internal_node_cell]
      exact hcount
    · simp only [set_internal_node_key, set_internal_node_child, if_neg hne5,
        internal_node_right_child_set_internal_node_cell]
      show (internalShiftLoop _ _ _).nextOrRight = _
      rw [HS.2.2.2.2.1]
      rfl
    · simp only [set_internal_node_key, set_internal_node_child, if_neg hne5,
        internal_node_cell_set_same]
    · intro i hi
      simp only [set_internal_node_key, set_internal_node_child, if_neg hne5]
      rw [internal_node_cell_set_other _ _ _ _ (by omega),
        internal_node_cell_set_other _ _ _ _ (by omega),
        HS.2.2.2.2.2.2.1 i (by omega)]
      rfl
    · intro i h1 h2
      simp only [set_internal_node_key, set_internal_node_child, if_neg hne5]
      rw [internal_node_cell_set_other _ _ _ _ (by omega),
        internal_node_cell_set_other _ _ _ _ (by omega),
        HS.2.2.2.2.2.2.2.2 i h1 h2]
      rfl

/-- Witness for C7: registering leaf page 4 (max key 15, not exceeding
the rightmost child's max 30) in the two-key parent of `c7Table`
succeeds and raises the stored key count to 3. -/
theorem C7_witness :
    (0 < c7Table.pager.numPages ∧ 4 < c7Table.pager.numPages ∧
      internal_node_num_keys (c7Table.pager.read 0) < INTERNAL_NODE_MAX_CELLS ∧
      internal_node_right_child (c7Table.pager.read 0) < c7Table.pager.numPages ∧
      internal_node_right_child (c7Table.pager.read 0) ≠ 0) ∧
    internal_node_num_keys
        (((internal_node_insert c7Table 0 4).state).pager.read 0) =
      internal_node_num_keys (c7Table.pager.read 0) + 1 :=
  ⟨⟨by decide, by decide, by decide, by decide, by decide⟩,
   (C7_internal_node_insert_correct c7Table 0 4 (c7Table.pager.read 0)
     (get_node_max_key (c7Table.pager.read 4))
     (internal_node_find_child (c7Table.pager.read 0)
       (get_node_max_key (c7Table.pager.read 4)))
     (internal_node_num_keys (c7Table.pager.read 0))
     (internal_node_right_child (c7Table.pager.read 0))
     (((internal_node_insert c7Table 0 4).state).pager.read 0)
     rfl rfl rfl rfl rfl (by decide) (by decide) (by decide) (by decide)
     (by decide) rfl).2.1⟩

/-! ## Claim C3 -/

theorem splitMerged_eq (c key : Nat) (value : Row) (O : Node) (f : Nat) :
    (if f = c then (key, value)
     else if f > c then leaf_node_cell O (f - 1)
     else leaf_node_cell O f) = splitMerged c key value O f := by
  simp only [splitMerged]
  split_ifs <;> first | rfl | omega

/-- Invariant of the split redistribution loop (`splitLoop` with fuel
`f` still runs virtual indices `f - 1` down to `0`): positions already
processed hold the merged sequence, positions not yet processed are
untouched, and no non-cell field of either node changes. -/
theorem splitLoop_spec (c key : Nat) (value : Row) :
    ∀ (f : Nat), f ≤ LEAF_NODE_MAX_CELLS + 1 → ∀ (O Nw : Node),
    (splitLoop c key value f (O, Nw)).1.nodeType = O.nodeType ∧
    (splitLoop c key value f (O, Nw)).1.isRoot = O.isRoot ∧
    (splitLoop c key value f (O, Nw)).1.parent = O.parent ∧
    (splitLoop c key value f (O, Nw)).1.count = O.count ∧
    (splitLoop c key value f (O, Nw)).1.nextOrRight = O.nextOrRight ∧
    (splitLoop c key value f (O, Nw)).2.nodeType = Nw.nodeType ∧
    (splitLoop c key value f (O, Nw)).2.isRoot = Nw.isRoot ∧
    (splitLoop c key value f (O, Nw)).2.parent = Nw.parent ∧
    (splitLoop c key value f (O, Nw)).2.count = Nw.count ∧
    (splitLoop c key value f (O, Nw)).2.nextOrRight = Nw.nextOrRight ∧
    (∀ j, j < f → j < LEAF_NODE_LEFT_SPLIT_COUNT →
      leaf_node_cell (splitLoop c key value f (O, Nw)).1 j =
        splitMerged c key value O j) ∧
    (∀ j, f ≤ j →
      leaf_node_cell (splitLoop c key value f (O, Nw)).1 j =
        leaf_node_cell O j) ∧
    (∀ j, LEAF_NODE_LEFT_SPLIT_COUNT ≤ j →
      leaf_node_cell (splitLoop c key value f (O, Nw)).1 j =
        leaf_node_cell O j) ∧
    (∀ j, j + LEAF_NODE_LEFT_SPLIT_COUNT < f →
      leaf_node_cell (splitLoop c key value f (O, Nw)).2 j =
        splitMerged c key value O (j + LEAF_NODE_LEFT_SPLIT_COUNT)) ∧
    (∀ j, f ≤ j + LEAF_NODE_LEFT_SPLIT_COUNT →
      leaf_node_cell (splitLoop c key value f (O, Nw)).2 j =
        leaf_node_cell Nw j) := by
  intro f
  induction f with
  | zero =>
    intro _ O Nw
    exact ⟨rfl, rfl, rfl, rfl, rfl, rfl, rfl, rfl, rfl, rfl,
      fun j h _ => absurd h (by omega),
      fun j _ => rfl, fun j _ => rfl,
      fun j h => absurd h (by omega),
      fun j _ => rfl⟩
  | succ f ih =>
    intro hf O Nw
    have hL : LEAF_NODE_LEFT_SPLIT_COUNT = 7 := by decide
    have hM : LEAF_NODE_MAX_CELLS = 13 := by decide
    simp only [splitLoop]
    by_cases h7 : f ≥ LEAF_NODE_LEFT_SPLIT_COUNT
    · rw [if_pos h7]
      have hmod : f % LEAF_NODE_LEFT_SPLIT_COUNT =
          f - LEAF_NODE_LEFT_SPLIT_COUNT := by
        rw [hL]
        rw [hL] at h7
        rw [hM] at hf
        omega
      rw [hmod]
      obtain ⟨ih1, ih2, ih3, ih4, ih5, ih6, ih7a, ih8, ih9, ih10, ih11, ih12,
        ih13, ih14, ih15⟩ :=
        ih (by omega) O
          (set_leaf_node_cell Nw (f - LEAF_NODE_LEFT_SPLIT_COUNT)
            (if f = c then (key, value)
             else if f > c then leaf_node_cell O (f - 1)
             else leaf_node_cell O f))
      refine ⟨ih1, ih2, ih3, ih4, ih5, ih6, ih7a, ih8, ih9, ih10, ?_, ?_, ?_,
        ?_, ?_⟩
      · intro j hj hjL
        exact ih11 j (by omega) hjL
      · intro j hj
        exact ih12 j (by omega)
      · exact ih13
      · intro j hj
        rcases Nat.lt_or_ge (j + LEAF_NODE_LEFT_SPLIT_COUNT) f with h | h
        · exact ih14 j h
        · have hjf : j = f - LEAF_NODE_LEFT_SPLIT_COUNT := by omega
          rw [ih15 j (by omega), hjf, leaf_node_cell_set_same]
          have hplus : f - LEAF_NODE_LEFT_SPLIT_COUNT +
              LEAF_NODE_LEFT_SPLIT_COUNT = f := by omega
          rw [hplus]
          exact splitMerged_eq c key value O f
      · intro j hj
        rw [ih15 j (by omega), leaf_node_cell_set_other _ _ _ _ (by omega)]
    · rw [if_neg h7]
      have hmod : f % LEAF_NODE_LEFT_SPLIT_COUNT = f :=
        Nat.mod_eq_of_lt (by omega)
      rw [hmod]
      obtain ⟨ih1, ih2, ih3, ih4, ih5, ih6, ih7a, ih8, ih9, ih10, ih11, ih12,
        ih13, ih14, ih15⟩ :=
        ih (by omega)
          (set_leaf_node_cell O f
            (if f = c then (key, value)
             else if f > c then leaf_node_cell O (f - 1)
             else leaf_node_cell O f)) Nw
      have hmerge : ∀ (w : Nat × Row) (j : Nat), j < f →
          splitMerged c key value (set_leaf_node_cell O f w) j =
            splitMerged c key value O j := by
        intro w j hj
        simp only [splitMerged]
        split_ifs with h1 h2
        · rw [leaf_node_cell_set_other _ _ _ _ (by omega)]
        · rfl
        · rw [leaf_node_cell_set_other _ _ _ _ (by omega)]
      refine ⟨ih1, ih2, ih3, ih4, ih5, ih6, ih7a, ih8, ih9, ih10, ?_, ?_, ?_,
        ?_, ?_⟩
      · intro j hj hjL
        rcases Nat.lt_or_ge j f with h | h
        · rw [ih11 j h hjL, hmerge _ j h]
        · have hjf : j = f := by omega
          rw [hjf, ih12 f (le_refl f), leaf_node_cell_set_same]
          exact splitMerged_eq c key value O f
      · intro j hj
        rw [ih12 j (by omega), leaf_node_cell_set_other _ _ _ _ (by omega)]
      · intro j hj
        rw [ih13 j hj, leaf_node_cell_set_other _ _ _ _ (by omega)]
      · intro j hj
        exact absurd hj (by omega)
      · intro j hj
        exact ih15 j (by omega)

/-- `internal_node_insert` writes only the parent page (whether it
completes or exits fatally): every other page reads back unchanged. -/
theorem internal_node_insert_state_read_other (t : Table) (pp cp q : Nat)
    (hq : q ≠ pp) :
    ((internal_node_insert t pp cp).state).pager.read q = t.pager.read q := by
  simp only [internal_node_insert, get_page_fst, get_page_snd]
  split
  · simp only [DbResult.state, read_write_page_other _ _ _ _ hq, read_ensurePage]
  · split
    · simp only [DbResult.state, read_write_page_other _ _ _ _ hq,
        read_ensurePage]
    · simp only [DbResult.state, read_write_page_other _ _ _ _ hq,
        read_ensurePage]

/-- C3: splitting a full non-root leaf distributes the ordered merge of
its cells with the new (key, row) — the old (left) page keeps merged
cells `0 .. LEFT-1`, the freshly allocated page (number = the old page
count) receives merged cells `LEFT .. MAX`, the new page carries the
old page's parent and next-leaf references, the old page's next-leaf
reference becomes the new page number, the two cell counts become
`LEFT_SPLIT_COUNT` and `RIGHT_SPLIT_COUNT`, and the new page is typed
as a leaf.  (A root leaf continues into `create_new_root`, which
relocates the left node — that path is described by C5.) -/
theorem C3_leaf_node_split_and_insert_correct (t : Table) (cursor : Cursor)
    (key : Nat) (value : Row) (OLD : Node) (S : Table)
    (hOLD : OLD = t.pager.read cursor.page_num)
    (hS : S = (leaf_node_split_and_insert t cursor key value).state)
    (hp : cursor.page_num < t.pager.numPages)
    (hfull : leaf_node_num_cells OLD = LEAF_NODE_MAX_CELLS)
    (hcell : cursor.cell_num ≤ LEAF_NODE_MAX_CELLS)
    (hnr : is_node_root OLD = false)
    (hpar : node_parent OLD < t.pager.numPages)
    (hparne : node_parent OLD ≠ cursor.page_num) :
    (∀ i, i < LEAF_NODE_LEFT_SPLIT_COUNT →
      leaf_node_cell (S.pager.read cursor.page_num) i =
        splitMerged cursor.cell_num key value OLD i) ∧
    (∀ i, i < LEAF_NODE_RIGHT_SPLIT_COUNT →
      leaf_node_cell (S.pager.read t.pager.numPages) i =
        splitMerged cursor.cell_num key value OLD
          (i + LEAF_NODE_LEFT_SPLIT_COUNT)) ∧
    leaf_node_num_cells (S.pager.read cursor.page_num) =
      LEAF_NODE_LEFT_SPLIT_COUNT ∧
    leaf_node_num_cells (S.pager.read t.pager.numPages) =
      LEAF_NODE_RIGHT_SPLIT_COUNT ∧
    node_parent (S.pager.read t.pager.numPages) = node_parent OLD ∧
    leaf_node_next_leaf (S.pager.read t.pager.numPages) =
      leaf_node_next_leaf OLD ∧
    leaf_node_next_leaf (S.pager.read cursor.page_num) = t.pager.numPages ∧
    get_node_type (S.pager.read t.pager.numPages) = NodeType.leaf := by
  subst hOLD hS
  have epp : ensurePage t.pager cursor.page_num = t.pager :=
    ensurePage_of_lt _ _ hp
  simp only [leaf_node_split_and_insert, get_page_fst, get_page_snd, epp,
    get_unused_page_num]
  have hL7 : LEAF_NODE_LEFT_SPLIT_COUNT = 7 := by decide
  have hR7 : LEAF_NODE_RIGHT_SPLIT_COUNT = 7 := by decide
  have hM13 : LEAF_NODE_MAX_CELLS = 13 := by decide
  set old1 := set_leaf_node_next_leaf (t.pager.read cursor.page_num)
    t.pager.numPages with hold1
  set new1 := set_leaf_node_next_leaf
    (set_node_parent (initialize_leaf_node (t.pager.read t.pager.numPages))
      (node_parent (t.pager.read cursor.page_num)))
    (leaf_node_next_leaf (t.pager.read cursor.page_num)) with hnew1
  have SL := splitLoop_spec cursor.cell_num key value
    (LEAF_NODE_MAX_CELLS + 1) (le_refl _) old1 new1
  generalize hST : splitLoop cursor.cell_num key value
    (LEAF_NODE_MAX_CELLS + 1) (old1, new1) = ST
  rw [hST] at SL
  obtain ⟨s1, s2, s3, s4, s5, s6, s7, s8, s9, s10, s11, s12, s13, s14, s15⟩ := SL
  have hisroot : ¬ (is_node_root
      (set_leaf_node_num_cells ST.1 LEAF_NODE_LEFT_SPLIT_COUNT) = true) := by
    show ¬ (ST.1.isRoot = true)
    rw [s2]
    rw [show old1.isRoot = false from hnr]
    exact Bool.false_ne_true
  rw [if_neg hisroot]
  have hpn : node_parent (set_leaf_node_num_cells ST.1
      LEAF_NODE_LEFT_SPLIT_COUNT) = node_parent (t.pager.read cursor.page_num) := by
    show ST.1.parent = _
    rw [s3]
    rfl
  simp only [hpn]
  have hP3n : (write_page (write_page (ensurePage t.pager t.pager.numPages)
      cursor.page_num (set_leaf_node_num_cells ST.1 LEAF_NODE_LEFT_SPLIT_COUNT))
      t.pager.numPages
      (set_leaf_node_num_cells ST.2 LEAF_NODE_RIGHT_SPLIT_COUNT)).numPages =
      t.pager.numPages + 1 := by
    rw [numPages_write_page, numPages_write_page, numPages_ensurePage]
    omega
  have ep4 : ensurePage (write_page (write_page (ensurePage t.pager
      t.pager.numPages) cursor.page_num
      (set_leaf_node_num_cells ST.1 LEAF_NODE_LEFT_SPLIT_COUNT))
      t.pager.numPages
      (set_leaf_node_num_cells ST.2 LEAF_NODE_RIGHT_SPLIT_COUNT))
      (node_parent (t.pager.read cursor.page_num)) =
      write_page (write_page (ensurePage t.pager t.pager.numPages)
      cursor.page_num (set_leaf_node_num_cells ST.1 LEAF_NODE_LEFT_SPLIT_COUNT))
      t.pager.numPages
      (set_leaf_node_num_cells ST.2 LEAF_NODE_RIGHT_SPLIT_COUNT) :=
    ensurePage_of_lt _ _ (by rw [hP3n]; omega)
  rw [ep4]
  have hqpage : cursor.page_num ≠ node_parent (t.pager.read cursor.page_num) :=
    Ne.symm hparne
  have hqnew : t.pager.numPages ≠ node_parent (t.pager.read cursor.page_num) := by
    omega
  have hpageN : cursor.page_num ≠ t.pager.numPages := by omega
  simp only [internal_node_insert_state_read_other _ _ _ _ hqpage,
    internal_node_insert_state_read_other _ _ _ _ hqnew,
    read_write_page_other _ _ _ _ hqpage,
    read_write_page_other _ _ _ _ hqnew,
    read_write_page_other _ _ _ _ hpageN,
    read_write_page_same]
  refine ⟨?_, ?_, rfl, rfl, ?_, ?_, ?_, ?_⟩
  · intro i hi
    have hcellred : leaf_node_cell (set_leaf_node_num_cells ST.1
        LEAF_NODE_LEFT_SPLIT_COUNT) i = leaf_node_cell ST.1 i := rfl
    rw [hcellred, s11 i (by rw [hM13]; rw [hL7] at hi; omega) hi]
    rfl
  · intro i hi
    have hcellred : leaf_node_cell (set_leaf_node_num_cells ST.2
        LEAF_NODE_RIGHT_SPLIT_COUNT) i = leaf_node_cell ST.2 i := rfl
    rw [hcellred, s14 i (by rw [hM13, hL7]; rw [hR7] at hi; omega)]
    rfl
  · show ST.2.parent = _
    rw [s8]
    rfl
  · show ST.2.nextOrRight = _
    rw [s10]
    rfl
  · show ST.1.nextOrRight = _
    rw [s5]
    rfl
  · show ST.2.nodeType = _
    rw [s6]
    rfl


/-- Witness for C3: splitting the full leaf on page 1 of `c3Table`
while inserting key 99 at cell 13 leaves 7 cells on page 1 and 7 cells
on the freshly allocated page. -/
theorem C3_witness :
    (1 < c3Table.pager.numPages ∧
     leaf_node_num_cells (c3Table.pager.read 1) = LEAF_NODE_MAX_CELLS ∧
     (13 : Nat) ≤ LEAF_NODE_MAX_CELLS ∧
     is_node_root (c3Table.pager.read 1) = false ∧
     node_parent (c3Table.pager.read 1) < c3Table.pager.numPages ∧
     node_parent (c3Table.pager.read 1) ≠ 1) ∧
    leaf_node_num_cells
        (((leaf_node_split_and_insert c3Table
            { page_num := 1, cell_num := 13, end_of_table := false } 99
            (sampleRow 99)).state).pager.read 1) =
      LEAF_NODE_LEFT_SPLIT_COUNT ∧
    leaf_node_num_cells
        (((leaf_node_split_and_insert c3Table
            { page_num := 1, cell_num := 13, end_of_table := false } 99
            (sampleRow 99)).state).pager.read c3Table.pager.numPages) =
      LEAF_NODE_RIGHT_SPLIT_COUNT :=
  ⟨⟨by decide, by decide, by decide, by decide, by decide, by decide⟩,
   (C3_leaf_node_split_and_insert_correct c3Table
     { page_num := 1, cell_num := 13, end_of_table := false } 99 (sampleRow 99)
     (c3Table.pager.read 1)
     ((leaf_node_split_and_insert c3Table
       { page_num := 1, cell_num := 13, end_of_table := false } 99
       (sampleRow 99)).state)
     rfl rfl (by decide) (by decide) (by decide) (by decide) (by decide)
     (by decide)).2.2.1,
   (C3_leaf_node_split_and_insert_correct c3Table
     { page_num := 1, cell_num := 13, end_of_table := false } 99 (sampleRow 99)
     (c3Table.pager.read 1)
     ((leaf_node_split_and_insert c3Table
       { page_num := 1, cell_num := 13, end_of_table := false } 99
       (sampleRow 99)).state)
     rfl rfl (by decide) (by decide) (by decide) (by decide) (by decide)
     (by decide)).2.2.2.1⟩

/-! ## Claim C9: state effects of the engine operations -/

theorem leaf_node_find_state (t : Table) (p k : Nat) (g : Bool) :
    (leaf_node_find t p k g).1 = { t with pager := ensurePage t.pager p } := rfl

theorem cursor_value_state (t : Table) (c : Cursor) :
    (cursor_value t c).1 = { t with pager := ensurePage t.pager c.page_num } :=
  rfl

theorem cursor_advance_state (t : Table) (c : Cursor) :
    (cursor_advance t c).1 =
      { t with pager := ensurePage t.pager c.page_num } := by
  simp only [cursor_advance]
  split
  · split <;> rfl
  · rfl

theorem internal_node_find_state (fuel : Nat) :
    ∀ (t : Table) (p k : Nat) (g : Bool) (t1 : Table) (c : Cursor),
    internal_node_find fuel t p k g = some (t1, c) →
    t1.root_page_num = t.root_page_num ∧
    (∀ n, t1.pager.read n = t.pager.read n) ∧
    t.pager.numPages ≤ t1.pager.numPages := by
  induction fuel with
  | zero =>
    intro t p k g t1 c h
    simp [internal_node_find] at h
  | succ m ih =>
    intro t p k g t1 c h
    rw [internal_node_find] at h
    split at h
    · have h1 : _ = t1 := congrArg Prod.fst (Option.some_inj.mp h)
      rw [leaf_node_find_state] at h1
      refine ⟨by rw [← h1], ?_, ?_⟩
      · intro n
        rw [← h1]
        simp only [get_page_fst, read_ensurePage]
      · rw [← h1]
        simp only [get_page_fst, numPages_ensurePage]
        omega
    · have := ih _ _ _ _ _ _ h
      refine ⟨this.1, ?_, ?_⟩
      · intro n
        rw [this.2.1 n]
        simp only [get_page_fst, read_ensurePage]
      · refine le_trans ?_ this.2.2
        simp only [get_page_fst, numPages_ensurePage]
        omega

theorem table_find_state (t : Table) (key : Nat) (g : Bool) (t1 : Table)
    (c : Cursor) (h : table_find t key g = some (t1, c)) :
    t1.root_page_num = t.root_page_num ∧
    (∀ n, t1.pager.read n = t.pager.read n) ∧
    t.pager.numPages ≤ t1.pager.numPages := by
  rw [table_find] at h
  split at h
  · have h1 : _ = t1 := congrArg Prod.fst (Option.some_inj.mp h)
    rw [leaf_node_find_state] at h1
    refine ⟨by rw [← h1], ?_, ?_⟩
    · intro n
      rw [← h1]
      simp only [get_page_fst, read_ensurePage]
    · rw [← h1]
      simp only [get_page_fst, numPages_ensurePage]
      omega
  · have := internal_node_find_state _ _ _ _ _ _ _ h
    refine ⟨this.1, ?_, ?_⟩
    · intro n
      rw [this.2.1 n]
      simp only [get_page_fst, read_ensurePage]
    · refine le_trans ?_ this.2.2
      simp only [get_page_fst, numPages_ensurePage]
      omega

theorem table_start_state (t : Table) (g : Bool) (t1 : Table) (c : Cursor)
    (h : table_start t g = some (t1, c)) :
    t1.root_page_num = t.root_page_num ∧
    (∀ n, t1.pager.read n = t.pager.read n) ∧
    t.pager.numPages ≤ t1.pager.numPages := by
  rw [table_start] at h
  split at h
  case h_1 => exact absurd h (by simp)
  case h_2 tc heq =>
    have h1 : _ = t1 := congrArg Prod.fst (Option.some_inj.mp h)
    have hf := table_find_state t 0 g tc.1 tc.2 (by rw [heq])
    refine ⟨by rw [← h1]; exact hf.1, ?_, ?_⟩
    · intro n
      rw [← h1]
      simp only [get_page_fst, read_ensurePage]
      exact hf.2.1 n
    · rw [← h1]
      simp only [get_page_fst, numPages_ensurePage]
      have := hf.2.2
      omega

/-- Transport of `Inv9` along an operation that preserves every page's
root flag and does not shrink the page count. -/
theorem Inv9_of_reads (t t2 : Table)
    (hroot : t2.root_page_num = t.root_page_num)
    (hreads : ∀ n, is_node_root (t2.pager.read n) = is_node_root (t.pager.read n))
    (hnum : t.pager.numPages ≤ t2.pager.numPages)
    (hI : Inv9 t) : Inv9 t2 :=
  ⟨by rw [hroot]; exact hI.1,
   lt_of_lt_of_le hI.2.1 hnum,
   by rw [hreads]; exact hI.2.2.1,
   fun n hn => by rw [hreads]; exact hI.2.2.2 n hn⟩

/-! ## Flags through the compound setters and loops -/

@[simp] theorem is_node_root_set_internal_node_child (n : Node) (i p : Nat) :
    is_node_root (set_internal_node_child n i p) = is_node_root n := by
  by_cases h : i = internal_node_num_keys n <;>
    simp [set_internal_node_child, h]

@[simp] theorem get_node_type_set_internal_node_child (n : Node) (i p : Nat) :
    get_node_type (set_internal_node_child n i p) = get_node_type n := by
  by_cases h : i = internal_node_num_keys n <;>
    simp [set_internal_node_child, h]

@[simp] theorem node_parent_set_internal_node_child (n : Node) (i p : Nat) :
    node_parent (set_internal_node_child n i p) = node_parent n := by
  by_cases h : i = internal_node_num_keys n <;>
    simp [set_internal_node_child, h]

@[simp] theorem internal_node_num_keys_set_internal_node_child (n : Node)
    (i p : Nat) :
    internal_node_num_keys (set_internal_node_child n i p) =
      internal_node_num_keys n := by
  by_cases h : i = internal_node_num_keys n <;>
    simp [set_internal_node_child, h]

@[simp] theorem is_node_root_set_internal_node_key (n : Node) (i k : Nat) :
    is_node_root (set_internal_node_key n i k) = is_node_root n := rfl

@[simp] theorem get_node_type_set_internal_node_key (n : Node) (i k : Nat) :
    get_node_type (set_internal_node_key n i k) = get_node_type n := rfl

@[simp] theorem node_parent_set_internal_node_key (n : Node) (i k : Nat) :
    node_parent (set_internal_node_key n i k) = node_parent n := rfl

@[simp] theorem internal_node_num_keys_set_internal_node_key (n : Node)
    (i k : Nat) :
    internal_node_num_keys (set_internal_node_key n i k) =
      internal_node_num_keys n := rfl

@[simp] theorem is_node_root_set_leaf_node_key (n : Node) (i k : Nat) :
    is_node_root (set_leaf_node_key n i k) = is_node_root n := rfl

@[simp] theorem get_node_type_set_leaf_node_key (n : Node) (i k : Nat) :
    get_node_type (set_leaf_node_key n i k) = get_node_type n := rfl

@[simp] theorem is_node_root_set_leaf_node_value (n : Node) (i : Nat) (r : Row) :
    is_node_root (set_leaf_node_value n i r) = is_node_root n := rfl

@[simp] theorem get_node_type_set_leaf_node_value (n : Node) (i : Nat) (r : Row) :
    get_node_type (set_leaf_node_value n i r) = get_node_type n := rfl

/-- Effect of the `leaf_node_insert` shifting loop: cells in
`(cell_num, i]` hold the previous occupant of the slot one to the left,
every other cell and every non-cell field is untouched. -/
theorem leafShiftLoop_spec (cell_num : Nat) :
    ∀ (i : Nat) (n : Node),
    (leafShiftLoop cell_num n i).nodeType = n.nodeType ∧
    (leafShiftLoop cell_num n i).isRoot = n.isRoot ∧
    (leafShiftLoop cell_num n i).parent = n.parent ∧
    (leafShiftLoop cell_num n i).count = n.count ∧
    (leafShiftLoop cell_num n i).nextOrRight = n.nextOrRight ∧
    (leafShiftLoop cell_num n i).internalCells = n.internalCells ∧
    (∀ j, j ≤ cell_num →
      leaf_node_cell (leafShiftLoop cell_num n i) j = leaf_node_cell n j) ∧
    (∀ j, i < j →
      leaf_node_cell (leafShiftLoop cell_num n i) j = leaf_node_cell n j) ∧
    (∀ j, cell_num < j → j ≤ i →
      leaf_node_cell (leafShiftLoop cell_num n i) j =
        leaf_node_cell n (j - 1)) := by
  intro i
  induction i with
  | zero =>
    intro n
    exact ⟨rfl, rfl, rfl, rfl, rfl, rfl, fun j _ => rfl, fun j _ => rfl,
      fun j h1 h2 => absurd h1 (by omega)⟩
  | succ m ih =>
    intro n
    simp only [leafShiftLoop]
    split
    case isTrue h =>
      have IH := ih (set_leaf_node_cell n (m + 1) (leaf_node_cell n m))
      refine ⟨IH.1, IH.2.1, IH.2.2.1, IH.2.2.2.1, IH.2.2.2.2.1,
        IH.2.2.2.2.2.1, ?_, ?_, ?_⟩
      · intro j hj
        rw [IH.2.2.2.2.2.2.1 j hj,
          leaf_node_cell_set_other _ _ _ _ (by omega)]
      · intro j hj
        rw [IH.2.2.2.2.2.2.2.1 j (by omega),
          leaf_node_cell_set_other _ _ _ _ (by omega)]
      · intro j h1 h2
        rcases Nat.lt_or_ge j (m + 1) with hj | hj
        · rw [IH.2.2.2.2.2.2.2.2 j h1 (by omega),
            leaf_node_cell_set_other _ _ _ _ (by omega)]
        · have hj2 : j = m + 1 := by omega
          rw [hj2, IH.2.2.2.2.2.2.2.1 (m + 1) (by omega),
            leaf_node_cell_set_same]
          simp
    case isFalse h =>
      exact ⟨rfl, rfl, rfl, rfl, rfl, rfl, fun j _ => rfl, fun j _ => rfl,
        fun j h1 h2 => absurd h1 (by omega)⟩

@[simp] theorem is_node_root_internalShiftLoop (idx : Nat) (n : Node) (m : Nat) :
    is_node_root (internalShiftLoop idx n m) = is_node_root n :=
  (internalShiftLoop_spec idx m n).2.1

@[simp] theorem get_node_type_internalShiftLoop (idx : Nat) (n : Node) (m : Nat) :
    get_node_type (internalShiftLoop idx n m) = get_node_type n :=
  (internalShiftLoop_spec idx m n).1

@[simp] theorem node_parent_internalShiftLoop (idx : Nat) (n : Node) (m : Nat) :
    node_parent (internalShiftLoop idx n m) = node_parent n :=
  (internalShiftLoop_spec idx m n).2.2.1

@[simp] theorem is_node_root_leafShiftLoop (c : Nat) (n : Node) (m : Nat) :
    is_node_root (leafShiftLoop c n m) = is_node_root n :=
  (leafShiftLoop_spec c m n).2.1

@[simp] theorem get_node_type_leafShiftLoop (c : Nat) (n : Node) (m : Nat) :
    get_node_type (leafShiftLoop c n m) = get_node_type n :=
  (leafShiftLoop_spec c m n).1

@[simp] theorem node_parent_leafShiftLoop (c : Nat) (n : Node) (m : Nat) :
    node_parent (leafShiftLoop c n m) = node_parent n :=
  (leafShiftLoop_spec c m n).2.2.1

@[simp] theorem leaf_node_num_cells_leafShiftLoop (c : Nat) (n : Node) (m : Nat) :
    leaf_node_num_cells (leafShiftLoop c n m) = leaf_node_num_cells n :=
  (leafShiftLoop_spec c m n).2.2.2.1

@[simp] theorem leaf_node_next_leaf_leafShiftLoop (c : Nat) (n : Node) (m : Nat) :
    leaf_node_next_leaf (leafShiftLoop c n m) = leaf_node_next_leaf n :=
  (leafShiftLoop_spec c m n).2.2.2.2.1

/-- `internal_node_insert` (completing or failing) preserves the root
page number, never shrinks the page count, and changes no page's root
flag or node type. -/
theorem internal_node_insert_state_flags (t : Table) (pp cp : Nat) :
    ((internal_node_insert t pp cp).state).root_page_num = t.root_page_num ∧
    t.pager.numPages ≤ ((internal_node_insert t pp cp).state).pager.numPages ∧
    ∀ q, is_node_root (((internal_node_insert t pp cp).state).pager.read q) =
        is_node_root (t.pager.read q) ∧
      get_node_type (((internal_node_insert t pp cp).state).pager.read q) =
        get_node_type (t.pager.read q) := by
  simp only [internal_node_insert, get_page_fst, get_page_snd]
  split
  · simp only [DbResult.state]
    refine ⟨trivial, ?_, ?_⟩
    · simp only [numPages_write_page, numPages_ensurePage]
      omega
    · intro q
      by_cases hq : q = pp
      · subst hq
        simp [read_write_page_same, read_ensurePage]
      · simp [read_write_page_other _ _ _ _ hq, read_ensurePage]
  · split
    · simp only [DbResult.state]
      refine ⟨trivial, ?_, ?_⟩
      · simp only [numPages_write_page, numPages_ensurePage]
        omega
      · intro q
        by_cases hq : q = pp
        · subst hq
          simp [read_write_page_same, read_ensurePage]
        · simp [read_write_page_other _ _ _ _ hq, read_ensurePage]
    · simp only [DbResult.state]
      refine ⟨trivial, ?_, ?_⟩
      · simp only [numPages_write_page, numPages_ensurePage]
        omega
      · intro q
        by_cases hq : q = pp
        · subst hq
          simp [read_write_page_same, read_ensurePage]
        · simp [read_write_page_other _ _ _ _ hq, read_ensurePage]

/-- Root-flag and type effects of `create_new_root`: page 0 becomes an
internal root; the copied left child (at the old page count) is not
root; any other nonzero page that was not root stays not root. -/
theorem create_new_root_flags (t : Table) (r : Nat)
    (hroot0 : t.root_page_num = 0)
    (h0 : 0 < t.pager.numPages)
    (hr : r < t.pager.numPages)
    (hrne : r ≠ 0) :
    (create_new_root t r).root_page_num = 0 ∧
    (create_new_root t r).pager.numPages = t.pager.numPages + 1 ∧
    is_node_root ((create_new_root t r).pager.read 0) = true ∧
    get_node_type ((create_new_root t r).pager.read 0) = NodeType.internal ∧
    (∀ n, n ≠ 0 → is_node_root (t.pager.read n) = false →
      is_node_root ((create_new_root t r).pager.read n) = false) := by
  have e0 : ensurePage t.pager 0 = t.pager := ensurePage_of_lt _ _ h0
  have er : ensurePage t.pager r = t.pager := ensurePage_of_lt _ _ hr
  simp only [create_new_root, get_page_fst, get_page_snd, get_unused_page_num,
    hroot0, e0, er, read_ensurePage]
  refine ⟨by simp [hroot0], ?_, ?_, ?_, ?_⟩
  · rw [numPages_write_page, numPages_write_page, numPages_write_page,
      numPages_ensurePage]
    omega
  · rw [read_write_page_other _ _ _ _ (Ne.symm hrne),
      read_write_page_other _ _ _ _ (by omega), read_write_page_same]
    rfl
  · rw [read_write_page_other _ _ _ _ (Ne.symm hrne),
      read_write_page_other _ _ _ _ (by omega), read_write_page_same]
    rfl
  · intro n hn hfalse
    by_cases hnr2 : n = r
    · subst hnr2
      rw [read_write_page_same]
      exact hfalse
    · rw [read_write_page_other _ _ _ _ hnr2]
      by_cases hnN : n = t.pager.numPages
      · subst hnN
        rw [read_write_page_same]
        rfl
      · rw [read_write_page_other _ _ _ _ hnN,
          read_write_page_other _ _ _ _ hn, read_ensurePage]
        exact hfalse

/-- Reading past the end of the page store yields the zero page. -/
theorem read_of_ge (p : Pager) (n : Nat) (h : p.numPages <= n) :
    p.read n = zeroPage := by
  simp only [Pager.numPages] at h
  simp only [Pager.read]
  rw [List.getD_eq_getElem?_getD, List.getElem?_eq_none h]
  rfl

/-- Flag preservation specialised to a successful `internal_node_insert`
on an explicitly given pager and root page number. -/
theorem internal_node_insert_ok_state (p : Pager) (r pp cp : Nat) (t2 : Table)
    (h : internal_node_insert { pager := p, root_page_num := r } pp cp =
      DbResult.ok t2) :
    t2.root_page_num = r ∧
    p.numPages <= t2.pager.numPages ∧
    ∀ q, is_node_root (t2.pager.read q) = is_node_root (p.read q) ∧
      get_node_type (t2.pager.read q) = get_node_type (p.read q) := by
  have hs := internal_node_insert_state_flags
    { pager := p, root_page_num := r } pp cp
  rw [h] at hs
  exact hs

/-- Splitting a leaf preserves the root-flag invariant, and can only
turn page 0 from leaf to internal (via root promotion), never back. -/
theorem leaf_node_split_inv (t : Table) (cursor : Cursor) (key : Nat)
    (value : Row) (t2 : Table) (hI : Inv9 t)
    (hok : leaf_node_split_and_insert t cursor key value = DbResult.ok t2) :
    Inv9 t2 ∧ (get_node_type (t.pager.read 0) = NodeType.internal →
      get_node_type (t2.pager.read 0) = NodeType.internal) := by
  obtain ⟨hI1, hI2, hI3, hI4⟩ := hI
  simp only [leaf_node_split_and_insert, get_page_fst, get_page_snd,
    get_unused_page_num, read_ensurePage] at hok
  revert hok
  generalize hST : splitLoop cursor.cell_num key value (LEAF_NODE_MAX_CELLS + 1)
    (set_leaf_node_next_leaf (t.pager.read cursor.page_num) (ensurePage t.pager cursor.page_num).numPages,
     set_leaf_node_next_leaf
       (set_node_parent (initialize_leaf_node (t.pager.read (ensurePage t.pager cursor.page_num).numPages))
         (node_parent (t.pager.read cursor.page_num)))
       (leaf_node_next_leaf (t.pager.read cursor.page_num))) = ST
  intro hok
  have SL := splitLoop_spec cursor.cell_num key value (LEAF_NODE_MAX_CELLS + 1)
    (le_refl _)
    (set_leaf_node_next_leaf (t.pager.read cursor.page_num) (ensurePage t.pager cursor.page_num).numPages)
    (set_leaf_node_next_leaf
      (set_node_parent (initialize_leaf_node (t.pager.read (ensurePage t.pager cursor.page_num).numPages))
        (node_parent (t.pager.read cursor.page_num)))
      (leaf_node_next_leaf (t.pager.read cursor.page_num)))
  rw [hST] at SL
  have hNN : 0 < (ensurePage t.pager cursor.page_num).numPages := by
    rw [numPages_ensurePage]
    omega
  have hNNge : t.pager.numPages ≤ (ensurePage t.pager cursor.page_num).numPages := by
    rw [numPages_ensurePage]
    omega
  have hpageNN : cursor.page_num < (ensurePage t.pager cursor.page_num).numPages := by
    rw [numPages_ensurePage]
    omega
  -- flags of the two written leaves
  have hold2root : is_node_root (set_leaf_node_num_cells ST.1
      LEAF_NODE_LEFT_SPLIT_COUNT) = is_node_root (t.pager.read cursor.page_num) := by
    show ST.1.isRoot = _
    rw [SL.2.1]
    rfl
  have hold2type : get_node_type (set_leaf_node_num_cells ST.1
      LEAF_NODE_LEFT_SPLIT_COUNT) = get_node_type (t.pager.read cursor.page_num) := by
    show ST.1.nodeType = _
    rw [SL.1]
    rfl
  have hnew2root : is_node_root (set_leaf_node_num_cells ST.2
      LEAF_NODE_RIGHT_SPLIT_COUNT) = false := by
    show ST.2.isRoot = false
    rw [SL.2.2.2.2.2.2.1]
    rfl
  split at hok
  case isTrue hisroot =>
    have hpage0 : cursor.page_num = 0 := by
      by_contra hne
      have hff := hI4 cursor.page_num hne
      rw [hold2root, hff] at hisroot
      exact Bool.false_ne_true hisroot
    rw [DbResult.ok.injEq] at hok
    subst hok
    have e0 : ensurePage t.pager 0 = t.pager := ensurePage_of_lt _ _ hI2
    rw [hpage0] at hold2root hold2type
    rw [hpage0, e0]
    have hCR := create_new_root_flags
      { t with pager :=
          (write_page (write_page (ensurePage t.pager t.pager.numPages) 0
            (set_leaf_node_num_cells ST.1 LEAF_NODE_LEFT_SPLIT_COUNT))
          t.pager.numPages
          (set_leaf_node_num_cells ST.2 LEAF_NODE_RIGHT_SPLIT_COUNT)) }
      t.pager.numPages
      (by simpa using hI1)
      (by simp only [numPages_write_page, numPages_ensurePage]; omega)
      (by simp only [numPages_write_page, numPages_ensurePage]; omega)
      (by omega)
    refine ⟨⟨hCR.1, by rw [hCR.2.1]; omega, hCR.2.2.1, ?_⟩, fun _ => hCR.2.2.2.1⟩
    intro n hn
    apply hCR.2.2.2.2 n hn
    show is_node_root ((write_page (write_page (ensurePage t.pager
      t.pager.numPages) 0
      (set_leaf_node_num_cells ST.1 LEAF_NODE_LEFT_SPLIT_COUNT))
      t.pager.numPages
      (set_leaf_node_num_cells ST.2 LEAF_NODE_RIGHT_SPLIT_COUNT)).read n) = false
    by_cases hnN : n = t.pager.numPages
    · subst hnN
      rw [read_write_page_same]
      exact hnew2root
    · rw [read_write_page_other _ _ _ _ hnN,
        read_write_page_other _ _ _ _ hn, read_ensurePage]
      exact hI4 n hn
  case isFalse hisroot =>
    revert hST hNN hNNge hpageNN hok
    generalize hNNe : (ensurePage t.pager cursor.page_num).numPages = NN
    intro hST hNN hNNge hpageNN hok
    revert hok
    generalize hP3 : write_page (write_page (ensurePage (ensurePage t.pager
      cursor.page_num) NN) cursor.page_num
      (set_leaf_node_num_cells ST.1 LEAF_NODE_LEFT_SPLIT_COUNT)) NN
      (set_leaf_node_num_cells ST.2 LEAF_NODE_RIGHT_SPLIT_COUNT) = P3
    generalize hpn : node_parent (set_leaf_node_num_cells ST.1
      LEAF_NODE_LEFT_SPLIT_COUNT) = pn
    intro hok
    have II := internal_node_insert_ok_state _ _ _ _ _ hok
    have hP3rd : ∀ q, q ≠ cursor.page_num → q ≠ NN →
        P3.read q = t.pager.read q := by
      intro q h1 h2
      rw [← hP3, read_write_page_other _ _ _ _ h2,
        read_write_page_other _ _ _ _ h1, read_ensurePage, read_ensurePage]
    have hP3pg : P3.read cursor.page_num =
        set_leaf_node_num_cells ST.1 LEAF_NODE_LEFT_SPLIT_COUNT := by
      rw [← hP3, read_write_page_other _ _ _ _ (by omega : cursor.page_num ≠ NN),
        read_write_page_same]
    have hP3NN : P3.read NN =
        set_leaf_node_num_cells ST.2 LEAF_NODE_RIGHT_SPLIT_COUNT := by
      rw [← hP3, read_write_page_same]
    have hP3num : NN < P3.numPages := by
      rw [← hP3, numPages_write_page]
      omega
    have hP3root : ∀ q, is_node_root (P3.read q) =
        is_node_root (t.pager.read q) := by
      intro q
      by_cases hq1 : q = NN
      · subst hq1
        rw [hP3NN, read_of_ge _ _ hNNge, hnew2root]
        rfl
      · by_cases hq2 : q = cursor.page_num
        · subst hq2
          rw [hP3pg]
          exact hold2root
        · rw [hP3rd q hq2 hq1]
    have hP3type : ∀ q, q ≠ NN →
        get_node_type (P3.read q) = get_node_type (t.pager.read q) := by
      intro q hq1
      by_cases hq2 : q = cursor.page_num
      · subst hq2
        rw [hP3pg]
        exact hold2type
      · rw [hP3rd q hq2 hq1]
    have hfin : ∀ q, is_node_root (t2.pager.read q) =
        is_node_root (t.pager.read q) := by
      intro q
      have h := (II.2.2 q).1
      by_cases hq : q = pn
      · rw [hq, read_write_page_same] at h
        simp only [update_internal_node_key,
          is_node_root_set_internal_node_key] at h
        rw [hq]
        rw [h]
        exact hP3root pn
      · rw [read_write_page_other _ _ _ _ hq, read_ensurePage] at h
        rw [h]
        exact hP3root q
    have hfinT : ∀ q, q ≠ NN → get_node_type (t2.pager.read q) =
        get_node_type (t.pager.read q) := by
      intro q hqNN
      have h := (II.2.2 q).2
      by_cases hq : q = pn
      · rw [hq, read_write_page_same] at h
        simp only [update_internal_node_key,
          get_node_type_set_internal_node_key] at h
        rw [hq]
        rw [h]
        exact hP3type pn (by omega)
      · rw [read_write_page_other _ _ _ _ hq, read_ensurePage] at h
        rw [h]
        exact hP3type q hqNN
    refine ⟨⟨?_, ?_, ?_, ?_⟩, ?_⟩
    · rw [II.1]
      exact hI1
    · have hnum := II.2.1
      rw [numPages_write_page, numPages_ensurePage] at hnum
      omega
    · rw [hfin 0]
      exact hI3
    · intro n hn
      rw [hfin n]
      exact hI4 n hn
    · intro hty
      rw [hfinT 0 (by omega)]
      exact hty

/-- `leaf_node_insert` (in place or via split) preserves the root-flag
invariant and the internal-ness of page 0. -/
theorem leaf_node_insert_inv (t : Table) (cursor : Cursor) (key : Nat)
    (value : Row) (t2 : Table) (hI : Inv9 t)
    (hok : leaf_node_insert t cursor key value = DbResult.ok t2) :
    Inv9 t2 ∧ (get_node_type (t.pager.read 0) = NodeType.internal →
      get_node_type (t2.pager.read 0) = NodeType.internal) := by
  simp only [leaf_node_insert, get_page_fst, get_page_snd] at hok
  split at hok
  case isTrue hfull =>
    have hIe : Inv9 { t with pager := ensurePage t.pager cursor.page_num } :=
      Inv9_of_reads t _ rfl (fun n => by rw [read_ensurePage])
        (by rw [numPages_ensurePage]; omega) hI
    have hs := leaf_node_split_inv _ cursor key value t2 hIe hok
    refine ⟨hs.1, fun h0 => hs.2 ?_⟩
    show get_node_type ((ensurePage t.pager cursor.page_num).read 0) = _
    rw [read_ensurePage]
    exact h0
  case isFalse hfull =>
    rw [DbResult.ok.injEq] at hok
    subst hok
    refine ⟨Inv9_of_reads t _ rfl ?_ ?_ hI, ?_⟩
    · intro n
      by_cases hn : n = cursor.page_num
      · subst hn
        show is_node_root ((write_page (ensurePage t.pager cursor.page_num)
          cursor.page_num _).read cursor.page_num) = _
        rw [read_write_page_same]
        simp only [is_node_root_set_leaf_node_value,
          is_node_root_set_leaf_node_key, is_node_root_set_leaf_node_num_cells,
          apply_ite is_node_root, is_node_root_leafShiftLoop, ite_self]
      · show is_node_root ((write_page (ensurePage t.pager cursor.page_num)
          cursor.page_num _).read n) = _
        rw [read_write_page_other _ _ _ _ hn, read_ensurePage]
    · show t.pager.numPages ≤ (write_page (ensurePage t.pager cursor.page_num)
        cursor.page_num _).numPages
      rw [numPages_write_page, numPages_ensurePage]
      omega
    · intro h0
      by_cases hn : (0 : Nat) = cursor.page_num
      · show get_node_type ((write_page (ensurePage t.pager cursor.page_num)
          cursor.page_num _).read 0) = _
        rw [hn, read_write_page_same]
        simp only [get_node_type_set_leaf_node_value,
          get_node_type_set_leaf_node_key, get_node_type_set_leaf_node_num_cells,
          apply_ite get_node_type, get_node_type_leafShiftLoop, ite_self]
        rw [← hn]
        exact h0
      · show get_node_type ((write_page (ensurePage t.pager cursor.page_num)
          cursor.page_num _).read 0) = _
        rw [read_write_page_other _ _ _ _ hn, read_ensurePage]
        exact h0

/-- Every single engine step preserves the root-flag invariant, and
page 0 never reverts from internal to leaf. -/
theorem inv9_step (t t2 : Table) (h : Step t t2) (hI : Inv9 t) :
    Inv9 t2 ∧ (get_node_type (t.pager.read 0) = NodeType.internal →
      get_node_type (t2.pager.read 0) = NodeType.internal) := by
  cases h with
  | find key g t1 c hf =>
    have hs := table_find_state t key g t2 c hf
    exact ⟨Inv9_of_reads t t2 hs.1 (fun n => by rw [hs.2.1 n]) hs.2.2 hI,
      fun h0 => by rw [hs.2.1 0]; exact h0⟩
  | start g t1 c hf =>
    have hs := table_start_state t g t2 c hf
    exact ⟨Inv9_of_reads t t2 hs.1 (fun n => by rw [hs.2.1 n]) hs.2.2 hI,
      fun h0 => by rw [hs.2.1 0]; exact h0⟩
  | advance c =>
    rw [cursor_advance_state]
    refine ⟨Inv9_of_reads t _ rfl (fun n => by rw [read_ensurePage])
      (by rw [numPages_ensurePage]; omega) hI, fun h0 => ?_⟩
    show get_node_type ((ensurePage t.pager c.page_num).read 0) = _
    rw [read_ensurePage]
    exact h0
  | value c =>
    rw [cursor_value_state]
    refine ⟨Inv9_of_reads t _ rfl (fun n => by rw [read_ensurePage])
      (by rw [numPages_ensurePage]; omega) hI, fun h0 => ?_⟩
    show get_node_type ((ensurePage t.pager c.page_num).read 0) = _
    rw [read_ensurePage]
    exact h0
  | insert key value t1 hins =>
    simp only [insertKey] at hins
    split at hins
    · exact absurd hins (by simp)
    case h_2 ta ca heq =>
      have hf := table_find_state t key false ta ca heq
      have hIa : Inv9 ta :=
        Inv9_of_reads t ta hf.1 (fun n => by rw [hf.2.1 n]) hf.2.2 hI
      have hli := leaf_node_insert_inv ta ca key value t2 hIa
        (Option.some_inj.mp hins)
      exact ⟨hli.1, fun h0 => hli.2 (by rw [hf.2.1 0]; exact h0)⟩

/-- A freshly opened database satisfies the root-flag invariant. -/
theorem inv9_open : Inv9 db_open_fresh := by
  refine ⟨rfl, by decide, rfl, ?_⟩
  intro n hn
  match n with
  | 0 => exact absurd rfl hn
  | m + 1 => rfl

/-- The root-flag invariant holds in every reachable state. -/
theorem reachable_inv9 (t : Table) (h : Reachable t) : Inv9 t := by
  induction h with
  | refl => exact inv9_open
  | tail hab hbc ih => exact (inv9_step _ _ hbc ih).1

/-- C9: in every table state reachable from a fresh open by any
sequence of find, start, cursor-advance, cursor-value and successful
insert operations (including leaf splits and root promotion), the
table's root page number is 0, page 0 exists and is the unique page
whose root flag is set; and across any step from a reachable state the
root's node type can only go from leaf to internal, never back. -/
theorem C9_root_unique_page_zero :
    (∀ t, Reachable t → Inv9 t) ∧
    (∀ t t2, Reachable t → Step t t2 →
      get_node_type (t.pager.read 0) = NodeType.internal →
      get_node_type (t2.pager.read 0) = NodeType.internal) :=
  ⟨reachable_inv9, fun t t2 hr hs h0 => (inv9_step t t2 hs (reachable_inv9 t hr)).2 h0⟩

theorem C9_witness :
    Reachable db_open_fresh ∧
    db_open_fresh.root_page_num = 0 ∧
    is_node_root (db_open_fresh.pager.read 0) = true ∧
    is_node_root (db_open_fresh.pager.read 3) = false :=
  ⟨Relation.ReflTransGen.refl,
   (C9_root_unique_page_zero.1 db_open_fresh Relation.ReflTransGen.refl).1,
   (C9_root_unique_page_zero.1 db_open_fresh Relation.ReflTransGen.refl).2.2.1,
   (C9_root_unique_page_zero.1 db_open_fresh
     Relation.ReflTransGen.refl).2.2.2 3 (by decide)⟩

end SimpleDb
